import Mathlib

/-!
# LensBlock — shallow embedding of the detection / threat-state pipeline

Definitions below are translated from the repository sources:
* src/security/controller.py (SecurityController)
* src/core/engine.py (YoloV8Engine)
* src/security/logger.py (ThreatLogger; modelled as an append-only list)

Machine floats (Python `float`) are modelled as rationals; Python `int(x)`
truncation toward zero is `pyInt`; Python dicts with insertion order are
modelled as association lists.
-/

namespace LensBlock

/-- Python `int(x)` on a real value: truncation toward zero. -/
def pyInt (q : ℚ) : ℤ := if 0 ≤ q then ⌊q⌋ else ⌈q⌉

/-- An axis-aligned bounding box (x1, y1, x2, y2), pixel coordinates
(Python tuples of ints, from engine.py / controller.py). -/
structure Box where
  x1 : ℤ
  y1 : ℤ
  x2 : ℤ
  y2 : ℤ
  deriving DecidableEq, Repr

/-- One tracked threat region: `{"box": (x1,y1,x2,y2), "cooldown": int}`
(controller.py line 55 / engine.py line 38). -/
structure ThreatData where
  box : Box
  cooldown : ℕ
  deriving DecidableEq, Repr

/-- The id → ThreatRegion mapping (`_active_threats`), an insertion-ordered
Python dict modelled as an association list. -/
abbrev Memory := List (ℕ × ThreatData)

/-- `ProtectionMode` enum (controller.py lines 18-20). -/
inductive ProtectionMode where
  | shield
  | censorship
  deriving DecidableEq, Repr

/-- The four live settings fetched by `SecurityController.get_settings`
(controller.py lines 61-67). -/
structure Settings where
  confidence_threshold : ℚ
  persistence_frames : ℕ
  enable_forensic_logging : Bool
  lockout_duration_seconds : ℚ
  deriving DecidableEq, Repr

/-- One row appended by `ThreatLogger.log_threat` (logger.py lines 29-49). -/
structure LogRecord where
  threat_type : String
  confidence_score : ℚ
  duration : ℚ
  deriving DecidableEq, Repr

/-- A frame travelling to the virtual-camera sink: either the raw capture,
the black "PRIVACY BLOCKED" shield frame, or a censored frame built by
blurring the given (already padded) boxes into the capture. -/
inductive VFrame where
  | raw (frameId : ℕ)
  | blocked
  | sanitized (frameId : ℕ) (blurredBoxes : List Box)
  deriving DecidableEq, Repr

/-- Whether a virtual-camera frame went through the redaction step. -/
def VFrame.isSanitizedFrame : VFrame → Bool
  | .sanitized _ _ => true
  | _ => false

/-- `_censor_cooldown_frames = 10` (controller.py line 58) and
`THREAT_COOLDOWN_FRAMES = 10` (engine.py line 8). -/
def censorCooldownFrames : ℕ := 10

/-- `_roi_padding = 0.20` (controller.py line 59) and
`ROI_PADDING_PERCENT = 0.20` (engine.py line 10). -/
def roiPaddingPercent : ℚ := 1/5

/-- Threat label used by the shield-mode exit path (controller.py line 292). -/
def shieldThreatType : String := "Cell phone visual intrusion"

/-- Threat label used by the censorship-mode exit path (controller.py line 205). -/
def censorThreatType : String := "Cell phone visual intrusion (censored)"

/-- `YoloV8Engine._iou` (engine.py lines 125-135), identical to
`SecurityController._compute_iou` (controller.py lines 345-356). -/
def iou (a b : Box) : ℚ :=
  let xA := max a.x1 b.x1
  let yA := max a.y1 b.y1
  let xB := min a.x2 b.x2
  let yB := min a.y2 b.y2
  let inter : ℤ := max 0 (xB - xA) * max 0 (yB - yA)
  let areaA : ℤ := (a.x2 - a.x1) * (a.y2 - a.y1)
  let areaB : ℤ := (b.x2 - b.x1) * (b.y2 - b.y1)
  let union : ℤ := areaA + areaB - inter
  if 0 < union then (inter : ℚ) / (union : ℚ) else 0

/-- `YoloV8Engine._pad_box` (engine.py lines 112-123); the same arithmetic
is inlined in the controller loop (controller.py lines 168-176). -/
def padBox (x1 y1 x2 y2 w h : ℤ) : Box :=
  let bw := x2 - x1
  let bh := y2 - y1
  let padX := pyInt ((bw : ℚ) * roiPaddingPercent)
  let padY := pyInt ((bh : ℚ) * roiPaddingPercent)
  ⟨max 0 (x1 - padX), max 0 (y1 - padY), min w (x2 + padX), min h (y2 + padY)⟩

/-- Association-list lookup in a threat memory (a Python dict access). -/
def findThreat (tid : ℕ) : Memory → Option ThreatData
  | [] => none
  | p :: rest => if p.1 = tid then some p.2 else findThreat tid rest

/-- Best-IoU match of a detection box against existing regions: fold of the
`for tid, tdata in self._active_threats.items()` loop, returning the best id
when the best IoU exceeds 0.3 (controller.py lines 132-140, equivalently
engine.py lines 204-213). -/
def bestMatch (mem : Memory) (b : Box) : Option ℕ :=
  let best := mem.foldl
    (fun (acc : ℚ × Option ℕ) p =>
      if acc.1 < iou b p.2.box then (iou b p.2.box, some p.1) else acc)
    ((0 : ℚ), (none : Option ℕ))
  if 3/10 < best.1 then best.2 else none

/-- In-place update of a matched region: new box, cooldown reset to 0
(controller.py lines 142-143 / engine.py lines 216-217). -/
def setBox (mem : Memory) (tid : ℕ) (b : Box) : Memory :=
  mem.map fun p => if p.1 = tid then (p.1, ⟨b, 0⟩) else p

/-- The per-detection matching loop: each detection either updates its
best-IoU region or creates a fresh region with the next id
(controller.py lines 130-149 / engine.py lines 203-226).
Returns (memory, next id, matched ids). -/
def matchPhase : List Box → Memory → ℕ → List ℕ → Memory × ℕ × List ℕ
  | [], mem, nid, matched => (mem, nid, matched)
  | b :: rest, mem, nid, matched =>
    match bestMatch mem b with
    | some tid => matchPhase rest (setBox mem tid b) nid (tid :: matched)
    | none => matchPhase rest (mem ++ [(nid, ⟨b, 0⟩)]) (nid + 1) (nid :: matched)

/-- Ageing of unmatched regions: increment cooldown, evict once the counter
exceeds `censorCooldownFrames` (controller.py lines 151-159 / engine.py
lines 228-236). -/
def ageThreats (matched : List ℕ) : Memory → Memory
  | [] => []
  | p :: rest =>
    if p.1 ∈ matched then p :: ageThreats matched rest
    else if censorCooldownFrames < p.2.cooldown + 1 then ageThreats matched rest
    else (p.1, ⟨p.2.box, p.2.cooldown + 1⟩) :: ageThreats matched rest

/-- One full threat-memory update for a frame's detections: matching then
ageing. Returns (memory, next id, matched ids). -/
def stepMemory (mem : Memory) (nid : ℕ) (boxes : List Box) : Memory × ℕ × List ℕ :=
  let r := matchPhase boxes mem nid []
  (ageThreats r.2.2 r.1, r.2.1, r.2.2)

/-- Iterate `stepMemory` with no detections at all for `n` frames
(every region stays unmatched on every frame). -/
def unmatchedRun : ℕ → Memory → ℕ → Memory
  | 0, mem, _ => mem
  | n + 1, mem, nid =>
    let r := stepMemory mem nid []
    unmatchedRun n r.1 r.2.1

/-- Padded boxes of all surviving regions, as blurred into the sanitized
frame (controller.py lines 165-184). -/
def paddedBoxes (mem : Memory) (w h : ℤ) : List Box :=
  mem.map fun p => padBox p.2.box.x1 p.2.box.y1 p.2.box.x2 p.2.box.y2 w h

/-- The mutable state of a `SecurityController` (controller.py lines 41-59),
together with the engine's threat memory (engine.py lines 38-40), the
audit-log rows written through `ThreatLogger.log_threat`, and the history of
`threat_detected` signal emissions (newest first). `vcam_out` is the frame
handed to the virtual camera at the end of the cycle. -/
structure CState where
  monitoring_active : Bool
  protection_mode : ProtectionMode
  consecutive_threat_frames : ℕ
  is_threat_active : Bool
  incident_start_time : Option ℚ
  max_threat_confidence : ℚ
  lockout_end_time : ℚ
  active_threats : Memory
  next_threat_id : ℕ
  last_censored_frame : Option VFrame
  engine_active_threats : Memory
  engine_next_threat_id : ℕ
  log : List LogRecord
  emitted : List (Bool × ℤ)
  vcam_out : Option VFrame
  deriving DecidableEq, Repr

/-- The state right after `SecurityController.__init__` (controller.py
lines 41-59) with a freshly constructed engine (engine.py lines 38-40). -/
def initState : CState where
  monitoring_active := true
  protection_mode := ProtectionMode.shield
  consecutive_threat_frames := 0
  is_threat_active := false
  incident_start_time := none
  max_threat_confidence := 0
  lockout_end_time := 0
  active_threats := []
  next_threat_id := 0
  last_censored_frame := none
  engine_active_threats := []
  engine_next_threat_id := 0
  log := []
  emitted := []
  vcam_out := none

/-- `detected and confidence >= threshold` (controller.py line 259). -/
def isHighConfidence (cfg : Settings) (detected : Bool) (confidence : ℚ) : Bool :=
  detected && decide (cfg.confidence_threshold ≤ confidence)

/-- Python `current_time - self.incident_start_time if self.incident_start_time
else 0.0` (controller.py lines 202 and 289): both `None` and the float `0.0`
are falsy. -/
def incidentDuration (now : ℚ) : Option ℚ → ℚ
  | some t => if t = 0 then 0 else now - t
  | none => 0

/-- Section 1 of `_evaluate_state` (controller.py lines 258-272): counter
increment / running max / sliding lockout timer on a qualifying frame,
counter reset to zero otherwise. -/
def updateCounters (cfg : Settings) (now : ℚ) (detected : Bool) (confidence : ℚ)
    (s : CState) : CState :=
  if isHighConfidence cfg detected confidence = true then
    let sa := { s with consecutive_threat_frames := s.consecutive_threat_frames + 1 }
    let sb :=
      if sa.max_threat_confidence < confidence then
        { sa with max_threat_confidence := confidence }
      else sa
    if sb.is_threat_active = true then
      { sb with lockout_end_time := now + cfg.lockout_duration_seconds }
    else sb
  else { s with consecutive_threat_frames := 0 }

/-- Section 2 of `_evaluate_state` (controller.py lines 274-301): the
Armed → Lockdown and Lockdown → Armed transitions. -/
def applyTransitions (cfg : Settings) (now : ℚ) (s : CState) : CState :=
  if cfg.persistence_frames ≤ s.consecutive_threat_frames then
    if s.is_threat_active = false then
      { s with is_threat_active := true
               incident_start_time := some now
               lockout_end_time := now + cfg.lockout_duration_seconds
               emitted := (true, pyInt (now + cfg.lockout_duration_seconds - now)) :: s.emitted }
    else s
  else if s.consecutive_threat_frames = 0 ∧ s.is_threat_active = true then
    if s.lockout_end_time < now then
      let sL :=
        if cfg.enable_forensic_logging = true then
          { s with log := ⟨shieldThreatType, s.max_threat_confidence,
                           incidentDuration now s.incident_start_time⟩ :: s.log }
        else s
      { sL with is_threat_active := false
                incident_start_time := none
                max_threat_confidence := 0
                lockout_end_time := 0
                emitted := (false, 0) :: sL.emitted }
    else s
  else s

/-- Section 3 of `_evaluate_state` (controller.py lines 303-308): the
per-frame countdown emission while locked out. -/
def emitCountdown (now : ℚ) (s : CState) : CState :=
  if s.is_threat_active = true then
    { s with emitted := (true, max 0 (pyInt (s.lockout_end_time - now))) :: s.emitted }
  else s

/-- `SecurityController._evaluate_state` (controller.py lines 252-308). -/
def evaluateState (cfg : Settings) (now : ℚ) (detected : Bool) (confidence : ℚ)
    (s : CState) : CState :=
  emitCountdown now (applyTransitions cfg now (updateCounters cfg now detected confidence s))

/-- One observed frame for the shield pipeline: wall-clock time plus the
engine's `detect` result. -/
structure FrameObs where
  now : ℚ
  detected : Bool
  confidence : ℚ
  deriving DecidableEq, Repr

/-- Fold of `_evaluate_state` over a sequence of observed frames. -/
def evalRun (cfg : Settings) (s : CState) (l : List FrameObs) : CState :=
  l.foldl (fun st f => evaluateState cfg f.now f.detected f.confidence st) s

/-- Length of the qualifying suffix after processing a sequence of frames:
the value the consecutive-frame counter follows (increment on a qualifying
frame, hard reset to zero otherwise). -/
def streakCount (cfg : Settings) (l : List FrameObs) : ℕ :=
  l.foldl (fun acc f => if isHighConfidence cfg f.detected f.confidence then acc + 1 else 0) 0

/-- A detect-only trace with detections at the given confidences, one frame
per time unit starting at time `t`. -/
def confTrace : ℚ → List ℚ → List FrameObs
  | _, [] => []
  | t, c :: rest => ⟨t, true, c⟩ :: confTrace (t + 1) rest

/-- The spec's example settings: threshold 0.60, persistence 3, logging on,
lockout 10 s (the documented defaults, controller.py lines 63-66). -/
def exampleCfg : Settings := ⟨3/5, 3, true, 10⟩

/-- `SecurityController.pause_monitoring` (controller.py lines 310-322). -/
def pauseMonitoring (s : CState) : CState :=
  let s1 := { s with monitoring_active := false }
  if s1.is_threat_active = true then
    { s1 with is_threat_active := false
              consecutive_threat_frames := 0
              incident_start_time := none
              max_threat_confidence := 0
              lockout_end_time := 0
              emitted := (false, 0) :: s1.emitted }
  else s1

/-- `SecurityController.resume_monitoring` (controller.py lines 324-327). -/
def resumeMonitoring (s : CState) : CState :=
  { s with monitoring_active := true }

/-- `SecurityController.set_protection_mode` (controller.py lines 329-343). -/
def setProtectionMode (mode : ProtectionMode) (s : CState) : CState :=
  let s1 := { s with protection_mode := mode }
  let s2 :=
    if s1.is_threat_active = true then
      { s1 with is_threat_active := false
                consecutive_threat_frames := 0
                incident_start_time := none
                max_threat_confidence := 0
                lockout_end_time := 0
                emitted := (false, 0) :: s1.emitted }
    else s1
  { s2 with active_threats := []
            last_censored_frame := none }

/-- `YoloV8Engine.clear_threat_memory` (engine.py lines 259-262); defined on
the combined state because the controller owns the engine. -/
def clearThreatMemory (s : CState) : CState :=
  { s with engine_active_threats := []
           engine_next_threat_id := 0 }

/-- One cycle's external inputs: a fresh captured frame (its identity and
pixel dimensions), the engine's detection results for it, the measured
inference latency, and the wall-clock time. -/
structure FrameInput where
  frameId : ℕ
  frame_w : ℤ
  frame_h : ℤ
  detected : Bool
  confidence : ℚ
  boxes : List Box
  latency_ms : ℚ
  now : ℚ
  deriving DecidableEq, Repr

/-- The frame half of the censorship branch (controller.py lines 119-188):
frame-drop fallback when inference exceeds 50 ms, otherwise IoU tracking,
ageing, and a freshly sanitized frame adopted as both the virtual-camera
output and the new last-safe frame. -/
def censorFramePhase (inp : FrameInput) (s : CState) : CState :=
  if 50 < inp.latency_ms ∧ s.last_censored_frame ≠ none then
    { s with vcam_out := s.last_censored_frame }
  else
    let r := stepMemory s.active_threats s.next_threat_id inp.boxes
    let sanitized := VFrame.sanitized inp.frameId (paddedBoxes r.1 inp.frame_w inp.frame_h)
    { s with active_threats := r.1
             next_threat_id := r.2.1
             last_censored_frame := some sanitized
             vcam_out := some sanitized }

/-- The incident-flag / audit half of the censorship branch (controller.py
lines 190-208), which runs on both the slow and the fast path. -/
def censorIncidentPhase (cfg : Settings) (inp : FrameInput) (sF : CState) : CState :=
  if inp.detected = true then
    if sF.is_threat_active = false then
      { sF with is_threat_active := true
                incident_start_time := some inp.now
                max_threat_confidence := inp.confidence }
    else if sF.max_threat_confidence < inp.confidence then
      { sF with max_threat_confidence := inp.confidence }
    else sF
  else if sF.is_threat_active = true ∧ sF.active_threats = [] then
    let sL :=
      if cfg.enable_forensic_logging = true then
        { sF with log := ⟨censorThreatType, sF.max_threat_confidence,
                          incidentDuration inp.now sF.incident_start_time⟩ :: sF.log }
      else sF
    { sL with is_threat_active := false
              incident_start_time := none
              max_threat_confidence := 0 }
  else sF

/-- The censorship-mode branch of the run loop (controller.py
lines 115-208). -/
def censorshipStep (cfg : Settings) (inp : FrameInput) (s : CState) : CState :=
  censorIncidentPhase cfg inp (censorFramePhase inp s)

/-- The shield-mode branch of the run loop (controller.py lines 209-222):
evaluate the lockout state machine, then route either the raw frame or the
black "PRIVACY BLOCKED" frame to the virtual camera. -/
def shieldStep (cfg : Settings) (inp : FrameInput) (s : CState) : CState :=
  let s1 := evaluateState cfg inp.now inp.detected inp.confidence s
  if s1.is_threat_active = true then { s1 with vcam_out := some VFrame.blocked }
  else { s1 with vcam_out := some (VFrame.raw inp.frameId) }

/-- One iteration of the run loop given a captured frame (controller.py
lines 104-245): when monitoring is disabled the whole evaluation block is
skipped and the raw frame goes to the virtual camera; otherwise the cycle
dispatches on the protection mode. -/
def cycleStep (cfg : Settings) (inp : FrameInput) (s : CState) : CState :=
  if s.monitoring_active = false then
    { s with vcam_out := some (VFrame.raw inp.frameId) }
  else if s.protection_mode = ProtectionMode.censorship then censorshipStep cfg inp s
  else shieldStep cfg inp s

/-- Fold of the run loop over a sequence of captured frames. -/
def cycleRun (cfg : Settings) (s : CState) (l : List FrameInput) : CState :=
  l.foldl (fun st inp => cycleStep cfg inp st) s

/-! ## Lemmas about the three sections of `_evaluate_state` -/

theorem uc_counter (cfg : Settings) (now : ℚ) (det : Bool) (conf : ℚ) (s : CState) :
    (updateCounters cfg now det conf s).consecutive_threat_frames =
      if isHighConfidence cfg det conf = true then s.consecutive_threat_frames + 1 else 0 := by
  simp only [updateCounters]
  split_ifs <;> rfl

theorem uc_active (cfg : Settings) (now : ℚ) (det : Bool) (conf : ℚ) (s : CState) :
    (updateCounters cfg now det conf s).is_threat_active = s.is_threat_active := by
  simp only [updateCounters]
  split_ifs <;> rfl

theorem uc_start (cfg : Settings) (now : ℚ) (det : Bool) (conf : ℚ) (s : CState) :
    (updateCounters cfg now det conf s).incident_start_time = s.incident_start_time := by
  simp only [updateCounters]
  split_ifs <;> rfl

theorem uc_log (cfg : Settings) (now : ℚ) (det : Bool) (conf : ℚ) (s : CState) :
    (updateCounters cfg now det conf s).log = s.log := by
  simp only [updateCounters]
  split_ifs <;> rfl

theorem uc_max (cfg : Settings) (now : ℚ) (det : Bool) (conf : ℚ) (s : CState) :
    (updateCounters cfg now det conf s).max_threat_confidence =
      if isHighConfidence cfg det conf = true ∧ s.max_threat_confidence < conf
      then conf else s.max_threat_confidence := by
  simp only [updateCounters]
  split_ifs <;> simp_all

theorem uc_lockout (cfg : Settings) (now : ℚ) (det : Bool) (conf : ℚ) (s : CState) :
    (updateCounters cfg now det conf s).lockout_end_time =
      if isHighConfidence cfg det conf = true ∧ s.is_threat_active = true
      then now + cfg.lockout_duration_seconds else s.lockout_end_time := by
  simp only [updateCounters]
  split_ifs <;> simp_all

theorem at_counter (cfg : Settings) (now : ℚ) (s : CState) :
    (applyTransitions cfg now s).consecutive_threat_frames = s.consecutive_threat_frames := by
  simp only [applyTransitions]
  split_ifs <;> rfl

theorem at_armed (cfg : Settings) (now : ℚ) (s : CState)
    (ha : s.is_threat_active = false)
    (hc : s.consecutive_threat_frames < cfg.persistence_frames) :
    applyTransitions cfg now s = s := by
  simp only [applyTransitions]
  rw [if_neg (by omega), if_neg (by simp [ha])]

theorem at_entry (cfg : Settings) (now : ℚ) (s : CState)
    (ha : s.is_threat_active = false)
    (hc : cfg.persistence_frames ≤ s.consecutive_threat_frames) :
    applyTransitions cfg now s =
      { s with is_threat_active := true
               incident_start_time := some now
               lockout_end_time := now + cfg.lockout_duration_seconds
               emitted := (true, pyInt (now + cfg.lockout_duration_seconds - now)) :: s.emitted } := by
  simp only [applyTransitions]
  rw [if_pos hc, if_pos ha]

theorem at_active_nonzero (cfg : Settings) (now : ℚ) (s : CState)
    (ha : s.is_threat_active = true) (h0 : s.consecutive_threat_frames ≠ 0) :
    applyTransitions cfg now s = s := by
  simp only [applyTransitions]
  split_ifs <;> simp_all

theorem at_wait (cfg : Settings) (now : ℚ) (s : CState)
    (ha : s.is_threat_active = true) (h0 : s.consecutive_threat_frames = 0)
    (ht : ¬ s.lockout_end_time < now) :
    applyTransitions cfg now s = s := by
  simp only [applyTransitions]
  split_ifs <;> simp_all

theorem at_exit (cfg : Settings) (now : ℚ) (s : CState)
    (ha : s.is_threat_active = true) (h0 : s.consecutive_threat_frames = 0)
    (hp : 1 ≤ cfg.persistence_frames) (ht : s.lockout_end_time < now) :
    applyTransitions cfg now s =
      { s with is_threat_active := false
               incident_start_time := none
               max_threat_confidence := 0
               lockout_end_time := 0
               log := if cfg.enable_forensic_logging = true
                      then ⟨shieldThreatType, s.max_threat_confidence,
                            incidentDuration now s.incident_start_time⟩ :: s.log
                      else s.log
               emitted := (false, 0) :: s.emitted } := by
  simp only [applyTransitions]
  rw [if_neg (by omega), if_pos ⟨h0, ha⟩, if_pos ht]
  split_ifs <;> rfl

theorem ec_active (now : ℚ) (s : CState) (ha : s.is_threat_active = true) :
    emitCountdown now s =
      { s with emitted := (true, max 0 (pyInt (s.lockout_end_time - now))) :: s.emitted } := by
  simp only [emitCountdown]
  rw [if_pos ha]

theorem ec_inactive (now : ℚ) (s : CState) (ha : s.is_threat_active = false) :
    emitCountdown now s = s := by
  simp only [emitCountdown]
  rw [if_neg (by simp [ha])]

theorem ec_active_proj (now : ℚ) (s : CState) :
    (emitCountdown now s).is_threat_active = s.is_threat_active ∧
    (emitCountdown now s).consecutive_threat_frames = s.consecutive_threat_frames ∧
    (emitCountdown now s).lockout_end_time = s.lockout_end_time ∧
    (emitCountdown now s).incident_start_time = s.incident_start_time ∧
    (emitCountdown now s).max_threat_confidence = s.max_threat_confidence ∧
    (emitCountdown now s).log = s.log := by
  simp only [emitCountdown]
  split_ifs <;> exact ⟨rfl, rfl, rfl, rfl, rfl, rfl⟩

/-! ## One-step and run-level behaviour of the lockout state machine -/

/-- While Armed and below persistence, a frame leaves the machine Armed and
the counter follows the increment/reset rule. -/
theorem evaluate_armed (cfg : Settings) (now : ℚ) (det : Bool) (conf : ℚ) (s : CState)
    (ha : s.is_threat_active = false)
    (hc : (if isHighConfidence cfg det conf = true then s.consecutive_threat_frames + 1 else 0) <
      cfg.persistence_frames) :
    (evaluateState cfg now det conf s).is_threat_active = false ∧
    (evaluateState cfg now det conf s).consecutive_threat_frames =
      (if isHighConfidence cfg det conf = true then s.consecutive_threat_frames + 1 else 0) := by
  set s1 := updateCounters cfg now det conf s with hs1
  have h1a : s1.is_threat_active = false := by rw [hs1, uc_active]; exact ha
  have h1c : s1.consecutive_threat_frames =
      (if isHighConfidence cfg det conf = true then s.consecutive_threat_frames + 1 else 0) := by
    rw [hs1, uc_counter]
  have h2 : applyTransitions cfg now s1 = s1 := at_armed cfg now s1 h1a (by rw [h1c]; exact hc)
  have h3 : evaluateState cfg now det conf s = s1 := by
    rw [evaluateState, ← hs1, h2, ec_inactive now s1 h1a]
  rw [h3]
  exact ⟨h1a, h1c⟩

/-- While Armed, a frame that lifts the counter to the persistence threshold
enters Lockdown on that very frame. -/
theorem evaluate_enters (cfg : Settings) (now : ℚ) (det : Bool) (conf : ℚ) (s : CState)
    (ha : s.is_threat_active = false)
    (hc : cfg.persistence_frames ≤
      (if isHighConfidence cfg det conf = true then s.consecutive_threat_frames + 1 else 0)) :
    (evaluateState cfg now det conf s).is_threat_active = true ∧
    (evaluateState cfg now det conf s).incident_start_time = some now ∧
    (evaluateState cfg now det conf s).lockout_end_time = now + cfg.lockout_duration_seconds := by
  set s1 := updateCounters cfg now det conf s with hs1
  have h1a : s1.is_threat_active = false := by rw [hs1, uc_active]; exact ha
  have h1c : s1.consecutive_threat_frames =
      (if isHighConfidence cfg det conf = true then s.consecutive_threat_frames + 1 else 0) := by
    rw [hs1, uc_counter]
  have h2 := at_entry cfg now s1 h1a (by rw [h1c]; exact hc)
  have h3 : evaluateState cfg now det conf s = emitCountdown now (applyTransitions cfg now s1) := by
    rw [evaluateState, ← hs1]
  rw [h3, h2]
  obtain ⟨e1, -, e3, e4, -, -⟩ := ec_active_proj now _
  exact ⟨e1, e4, e3⟩

/-- The counter after a whole run from a counter-zero start equals the
qualifying-suffix streak, no matter what the rest of the state does. -/
theorem evaluate_counter (cfg : Settings) (now : ℚ) (det : Bool) (conf : ℚ) (s : CState) :
    (evaluateState cfg now det conf s).consecutive_threat_frames =
      (if isHighConfidence cfg det conf = true then s.consecutive_threat_frames + 1 else 0) := by
  rw [evaluateState, (ec_active_proj now _).2.1, at_counter, uc_counter]

theorem evalRun_append (cfg : Settings) (s : CState) (l : List FrameObs) (f : FrameObs) :
    evalRun cfg s (l ++ [f]) =
      evaluateState cfg f.now f.detected f.confidence (evalRun cfg s l) := by
  simp [evalRun, List.foldl_append]

theorem streakCount_append (cfg : Settings) (l : List FrameObs) (f : FrameObs) :
    streakCount cfg (l ++ [f]) =
      if isHighConfidence cfg f.detected f.confidence = true
      then streakCount cfg l + 1 else 0 := by
  simp only [streakCount, List.foldl_append, List.foldl_cons, List.foldl_nil]

/-- As long as no prefix of the trace reaches the persistence threshold, a
run from the initial state stays Armed and its counter tracks the streak. -/
theorem evalRun_armed (cfg : Settings) (l : List FrameObs)
    (h : ∀ j, j ≤ l.length → streakCount cfg (l.take j) < cfg.persistence_frames) :
    (evalRun cfg initState l).is_threat_active = false ∧
    (evalRun cfg initState l).consecutive_threat_frames = streakCount cfg l := by
  induction l using List.reverseRecOn with
  | nil => exact ⟨rfl, rfl⟩
  | append_singleton l f ih =>
    have hpre : ∀ j, j ≤ l.length → streakCount cfg (l.take j) < cfg.persistence_frames := by
      intro j hj
      have h' := h j (le_trans hj (by simp))
      rwa [List.take_append_of_le_length hj] at h'
    obtain ⟨hact, hcnt⟩ := ih hpre
    have hfull : streakCount cfg (l ++ [f]) < cfg.persistence_frames := by
      have h' := h (l ++ [f]).length le_rfl
      rwa [List.take_length] at h'
    rw [evalRun_append]
    have hstep := streakCount_append cfg l f
    constructor
    · exact (evaluate_armed cfg f.now f.detected f.confidence _ hact
        (by rw [hcnt]; rw [hstep] at hfull; exact hfull)).1
    · rw [(evaluate_armed cfg f.now f.detected f.confidence _ hact
        (by rw [hcnt]; rw [hstep] at hfull; exact hfull)).2, hcnt, hstep]

/-- A run from the initial state enters Lockdown on exactly the frame whose
processing lifts the streak to the persistence threshold. -/
theorem evalRun_enters (cfg : Settings) (l : List FrameObs) (f : FrameObs)
    (h : ∀ j, j ≤ l.length → streakCount cfg (l.take j) < cfg.persistence_frames)
    (hf : cfg.persistence_frames ≤ streakCount cfg (l ++ [f])) :
    (evalRun cfg initState (l ++ [f])).is_threat_active = true := by
  obtain ⟨hact, hcnt⟩ := evalRun_armed cfg l h
  rw [evalRun_append]
  refine (evaluate_enters cfg f.now f.detected f.confidence _ hact ?_).1
  rw [hcnt]
  rw [streakCount_append] at hf
  exact hf

/-! ## Claim C1 -/

/-- Claim C1: from the Armed initial state the controller enters Lockdown
exactly on the frame at which the count of consecutive qualifying frames
(confidence ≥ threshold) reaches `persistence_frames`: while every prefix
streak is below the threshold the machine stays Armed with the counter equal
to the streak, the frame lifting the streak to the threshold enters Lockdown,
any non-qualifying frame resets the counter to zero immediately, and the
spec's two concrete examples behave as stated (threshold 0.60, persistence 3:
`[0.7, 0.7, 0.7]` enters on frame 3, `[0.7, 0.3, 0.7, 0.7, 0.7]` only on
frame 5). -/
theorem C1_lockdown_entry_at_persistence (cfg : Settings)
    (_hp : 1 ≤ cfg.persistence_frames) :
    (∀ l : List FrameObs,
       (∀ j, j ≤ l.length → streakCount cfg (l.take j) < cfg.persistence_frames) →
       (evalRun cfg initState l).is_threat_active = false ∧
       (evalRun cfg initState l).consecutive_threat_frames = streakCount cfg l) ∧
    (∀ (l : List FrameObs) (f : FrameObs),
       (∀ j, j ≤ l.length → streakCount cfg (l.take j) < cfg.persistence_frames) →
       cfg.persistence_frames ≤ streakCount cfg (l ++ [f]) →
       (evalRun cfg initState (l ++ [f])).is_threat_active = true) ∧
    (∀ (now : ℚ) (det : Bool) (conf : ℚ) (s : CState),
       isHighConfidence cfg det conf = false →
       (evaluateState cfg now det conf s).consecutive_threat_frames = 0) ∧
    ((evalRun exampleCfg initState (confTrace 1 [7/10, 7/10, 7/10])).is_threat_active = true ∧
     (evalRun exampleCfg initState (confTrace 1 [7/10, 7/10])).is_threat_active = false) ∧
    ((evalRun exampleCfg initState
        (confTrace 1 [7/10, 3/10, 7/10, 7/10, 7/10])).is_threat_active = true ∧
     (evalRun exampleCfg initState
        (confTrace 1 [7/10, 3/10, 7/10, 7/10])).is_threat_active = false) := by
  refine ⟨fun l h => evalRun_armed cfg l h,
          fun l f h hf => evalRun_enters cfg l f h hf, ?_, ?_, ?_⟩
  · intro now det conf s hq
    rw [evaluate_counter, hq]
    simp
  · exact ⟨by with_unfolding_all decide, by with_unfolding_all decide⟩
  · exact ⟨by with_unfolding_all decide, by with_unfolding_all decide⟩

/-- While in Lockdown, further branches of `applyTransitions` never drop the
threat flag unless the lockout timer has expired. -/
theorem at_keep_active (cfg : Settings) (now : ℚ) (s : CState)
    (ha : s.is_threat_active = true) (ht : ¬ s.lockout_end_time < now) :
    (applyTransitions cfg now s).is_threat_active = true := by
  simp only [applyTransitions]
  split_ifs <;> simp_all

/-- While in Lockdown with a zero counter and a live timer, `applyTransitions`
leaves the state untouched, for every persistence setting. -/
theorem at_keep_state (cfg : Settings) (now : ℚ) (s : CState)
    (ha : s.is_threat_active = true) (h0 : s.consecutive_threat_frames = 0)
    (ht : ¬ s.lockout_end_time < now) :
    applyTransitions cfg now s = s := by
  simp only [applyTransitions]
  split_ifs <;> simp_all

/-- A qualifying frame during Lockdown slides the lockout timer to
`now + lockout_duration` and keeps Lockdown. -/
theorem evaluate_lockdown_qual (cfg : Settings) (now : ℚ) (det : Bool) (conf : ℚ) (s : CState)
    (ha : s.is_threat_active = true) (hq : isHighConfidence cfg det conf = true) :
    (evaluateState cfg now det conf s).is_threat_active = true ∧
    (evaluateState cfg now det conf s).lockout_end_time =
      now + cfg.lockout_duration_seconds := by
  set s1 := updateCounters cfg now det conf s with hs1
  have h1a : s1.is_threat_active = true := by rw [hs1, uc_active]; exact ha
  have h1c : s1.consecutive_threat_frames = s.consecutive_threat_frames + 1 := by
    rw [hs1, uc_counter, if_pos hq]
  have h1l : s1.lockout_end_time = now + cfg.lockout_duration_seconds := by
    rw [hs1, uc_lockout, if_pos ⟨hq, ha⟩]
  have h2 : applyTransitions cfg now s1 = s1 :=
    at_active_nonzero cfg now s1 h1a (by omega)
  have h3 : evaluateState cfg now det conf s = emitCountdown now s1 := by
    rw [evaluateState, ← hs1, h2]
  rw [h3]
  obtain ⟨e1, -, e3, -, -, -⟩ := ec_active_proj now s1
  exact ⟨by rw [e1]; exact h1a, by rw [e3]; exact h1l⟩

/-- A non-qualifying frame during Lockdown with a live timer resets the
counter but keeps Lockdown and leaves the timer untouched. -/
theorem evaluate_lockdown_absent (cfg : Settings) (now : ℚ) (det : Bool) (conf : ℚ) (s : CState)
    (ha : s.is_threat_active = true) (hq : isHighConfidence cfg det conf = false)
    (ht : now ≤ s.lockout_end_time) :
    (evaluateState cfg now det conf s).is_threat_active = true ∧
    (evaluateState cfg now det conf s).lockout_end_time = s.lockout_end_time := by
  set s1 := updateCounters cfg now det conf s with hs1
  have h1a : s1.is_threat_active = true := by rw [hs1, uc_active]; exact ha
  have h1c : s1.consecutive_threat_frames = 0 := by
    rw [hs1, uc_counter, if_neg (by simp [hq])]
  have h1l : s1.lockout_end_time = s.lockout_end_time := by
    rw [hs1, uc_lockout, if_neg (by simp [hq])]
  have h2 : applyTransitions cfg now s1 = s1 :=
    at_keep_state cfg now s1 h1a h1c (by rw [h1l]; exact not_lt.2 ht)
  have h3 : evaluateState cfg now det conf s = emitCountdown now s1 := by
    rw [evaluateState, ← hs1, h2]
  rw [h3]
  obtain ⟨e1, -, e3, -, -, -⟩ := ec_active_proj now s1
  exact ⟨by rw [e1]; exact h1a, by rw [e3]; exact h1l⟩

/-- During Lockdown, the threat flag drops on a frame exactly when the frame
is non-qualifying and the lockout timer has already expired. -/
theorem evaluate_exit_iff (cfg : Settings) (now : ℚ) (det : Bool) (conf : ℚ) (s : CState)
    (hp : 1 ≤ cfg.persistence_frames) (ha : s.is_threat_active = true) :
    ((evaluateState cfg now det conf s).is_threat_active = false ↔
      (isHighConfidence cfg det conf = false ∧ s.lockout_end_time < now)) := by
  cases hq : isHighConfidence cfg det conf with
  | true =>
    have h := (evaluate_lockdown_qual cfg now det conf s ha hq).1
    simp [h]
  | false =>
    set s1 := updateCounters cfg now det conf s with hs1
    have h1a : s1.is_threat_active = true := by rw [hs1, uc_active]; exact ha
    have h1c : s1.consecutive_threat_frames = 0 := by
      rw [hs1, uc_counter, if_neg (by simp [hq])]
    have h1l : s1.lockout_end_time = s.lockout_end_time := by
      rw [hs1, uc_lockout, if_neg (by simp [hq])]
    by_cases ht : s.lockout_end_time < now
    · have h2 := at_exit cfg now s1 h1a h1c hp (by rw [h1l]; exact ht)
      have h3 : evaluateState cfg now det conf s = emitCountdown now (applyTransitions cfg now s1) := by
        rw [evaluateState, ← hs1]
      rw [h3, h2, ec_inactive _ _ (by rfl)]
      simp [ht]
    · have h2 : applyTransitions cfg now s1 = s1 :=
        at_keep_state cfg now s1 h1a h1c (by rw [h1l]; exact ht)
      have h3 : evaluateState cfg now det conf s = emitCountdown now s1 := by
        rw [evaluateState, ← hs1, h2]
      rw [h3]
      obtain ⟨e1, -, -, -, -, -⟩ := ec_active_proj now s1
      rw [e1, h1a]
      simp [ht]

/-- An arbitrarily long run of non-qualifying frames, each arriving before
the lockout deadline, keeps Lockdown and leaves the deadline untouched. -/
theorem evalRun_lockdown_absent (cfg : Settings) (l : List FrameObs) (s : CState)
    (ha : s.is_threat_active = true)
    (h : ∀ f ∈ l, isHighConfidence cfg f.detected f.confidence = false ∧
      f.now ≤ s.lockout_end_time) :
    (evalRun cfg s l).is_threat_active = true ∧
    (evalRun cfg s l).lockout_end_time = s.lockout_end_time := by
  induction l generalizing s with
  | nil => exact ⟨ha, rfl⟩
  | cons f rest ih =>
    obtain ⟨hq, ht⟩ := h f (by simp)
    obtain ⟨ha', hl'⟩ := evaluate_lockdown_absent cfg f.now f.detected f.confidence s ha hq ht
    have hrest : ∀ g ∈ rest, isHighConfidence cfg g.detected g.confidence = false ∧
        g.now ≤ (evaluateState cfg f.now f.detected f.confidence s).lockout_end_time := by
      intro g hg
      rw [hl']
      exact h g (by simp [hg])
    obtain ⟨r1, r2⟩ := ih _ ha' hrest
    refine ⟨r1, ?_⟩
    show (evalRun cfg (evaluateState cfg f.now f.detected f.confidence s)
      rest).lockout_end_time = s.lockout_end_time
    rw [r2, hl']

/-! ## Claim C2 -/

/-- Claim C2: while in Lockdown, every qualifying frame slides the lockout
deadline to `now + lockout_duration` (strictly increasing it whenever the old
deadline lay before that value), Lockdown never exits on a frame arriving at
or before the deadline — in particular not across an arbitrarily long run of
non-qualifying frames inside the deadline — and the flag drops exactly when a
frame is non-qualifying (so the freshly reset counter is zero) and the
deadline has passed. -/
theorem C2_lockdown_sliding_expiry (cfg : Settings) (hp : 1 ≤ cfg.persistence_frames) :
    (∀ (now : ℚ) (det : Bool) (conf : ℚ) (s : CState),
       s.is_threat_active = true → isHighConfidence cfg det conf = true →
       (evaluateState cfg now det conf s).lockout_end_time =
         now + cfg.lockout_duration_seconds ∧
       (evaluateState cfg now det conf s).is_threat_active = true) ∧
    (∀ (now : ℚ) (det : Bool) (conf : ℚ) (s : CState),
       s.is_threat_active = true → isHighConfidence cfg det conf = true →
       s.lockout_end_time < now + cfg.lockout_duration_seconds →
       s.lockout_end_time < (evaluateState cfg now det conf s).lockout_end_time) ∧
    (∀ (now : ℚ) (det : Bool) (conf : ℚ) (s : CState),
       s.is_threat_active = true → now ≤ s.lockout_end_time →
       (evaluateState cfg now det conf s).is_threat_active = true) ∧
    (∀ (now : ℚ) (det : Bool) (conf : ℚ) (s : CState),
       s.is_threat_active = true →
       ((evaluateState cfg now det conf s).is_threat_active = false ↔
         (isHighConfidence cfg det conf = false ∧ s.lockout_end_time < now))) ∧
    (∀ (l : List FrameObs) (s : CState),
       s.is_threat_active = true →
       (∀ f ∈ l, isHighConfidence cfg f.detected f.confidence = false ∧
          f.now ≤ s.lockout_end_time) →
       (evalRun cfg s l).is_threat_active = true) := by
  refine ⟨?_, ?_, ?_, ?_, ?_⟩
  · intro now det conf s ha hq
    exact ⟨(evaluate_lockdown_qual cfg now det conf s ha hq).2,
           (evaluate_lockdown_qual cfg now det conf s ha hq).1⟩
  · intro now det conf s ha hq hlt
    rw [(evaluate_lockdown_qual cfg now det conf s ha hq).2]
    exact hlt
  · intro now det conf s ha ht
    cases hq : isHighConfidence cfg det conf with
    | true => exact (evaluate_lockdown_qual cfg now det conf s ha hq).1
    | false => exact (evaluate_lockdown_absent cfg now det conf s ha hq ht).1
  · intro now det conf s ha
    exact evaluate_exit_iff cfg now det conf s hp ha
  · intro l s ha h
    exact (evalRun_lockdown_absent cfg l s ha h).1

/-- Witness for C2: a concrete Lockdown state (reached from the example
trace) slides its deadline on a qualifying frame at time 4 and survives a
quiet frame at time 6. -/
theorem C2_lockdown_sliding_expiry_witness :
    (evaluateState exampleCfg 4 true (8/10)
       (evalRun exampleCfg initState (confTrace 1 [7/10, 7/10, 7/10]))).lockout_end_time = 14 ∧
    (evaluateState exampleCfg 6 false 0
       (evalRun exampleCfg initState (confTrace 1 [7/10, 7/10, 7/10]))).is_threat_active = true := by
  have h := C2_lockdown_sliding_expiry exampleCfg (by with_unfolding_all decide)
  constructor
  · have h1 := (h.1 4 true (8/10)
      (evalRun exampleCfg initState (confTrace 1 [7/10, 7/10, 7/10]))
      (by with_unfolding_all decide) (by with_unfolding_all decide)).1
    rw [h1]
    with_unfolding_all decide
  · exact h.2.2.1 6 false 0
      (evalRun exampleCfg initState (confTrace 1 [7/10, 7/10, 7/10]))
      (by with_unfolding_all decide) (by with_unfolding_all decide)

/-- `applyTransitions` never writes a log record while the flag is down. -/
theorem at_log_inactive (cfg : Settings) (now : ℚ) (s : CState)
    (ha : s.is_threat_active = false) :
    (applyTransitions cfg now s).log = s.log := by
  simp only [applyTransitions]
  split_ifs <;> simp_all

/-- `applyTransitions` preserves the running max while the counter is
nonzero (the exit branch is unreachable then). -/
theorem at_max_nonzero (cfg : Settings) (now : ℚ) (s : CState)
    (h0 : s.consecutive_threat_frames ≠ 0) :
    (applyTransitions cfg now s).max_threat_confidence = s.max_threat_confidence := by
  simp only [applyTransitions]
  split_ifs <;> simp_all

/-- No frame processed while the flag is down can append a log record. -/
theorem evaluate_log_inactive (cfg : Settings) (now : ℚ) (det : Bool) (conf : ℚ) (s : CState)
    (ha : s.is_threat_active = false) :
    (evaluateState cfg now det conf s).log = s.log := by
  set s1 := updateCounters cfg now det conf s with hs1
  have h1a : s1.is_threat_active = false := by rw [hs1, uc_active]; exact ha
  rw [evaluateState, ← hs1, (ec_active_proj now _).2.2.2.2.2, at_log_inactive cfg now s1 h1a,
    hs1, uc_log]

/-- Full characterization of the audit log across one Lockdown frame: a
record is appended exactly on the exit frame and exactly when forensic
logging is enabled, carrying the running max confidence and the
Python-truthiness incident duration. -/
theorem evaluate_log_active (cfg : Settings) (now : ℚ) (det : Bool) (conf : ℚ) (s : CState)
    (hp : 1 ≤ cfg.persistence_frames) (ha : s.is_threat_active = true) :
    (evaluateState cfg now det conf s).log =
      if isHighConfidence cfg det conf = false ∧ s.lockout_end_time < now ∧
         cfg.enable_forensic_logging = true
      then ⟨shieldThreatType, s.max_threat_confidence,
            incidentDuration now s.incident_start_time⟩ :: s.log
      else s.log := by
  set s1 := updateCounters cfg now det conf s with hs1
  have h1a : s1.is_threat_active = true := by rw [hs1, uc_active]; exact ha
  have h1log : s1.log = s.log := by rw [hs1, uc_log]
  cases hq : isHighConfidence cfg det conf with
  | true =>
    have h1c : s1.consecutive_threat_frames = s.consecutive_threat_frames + 1 := by
      rw [hs1, uc_counter, if_pos hq]
    have h2 : applyTransitions cfg now s1 = s1 :=
      at_active_nonzero cfg now s1 h1a (by omega)
    rw [evaluateState, ← hs1, (ec_active_proj now _).2.2.2.2.2, h2, h1log]
    simp
  | false =>
    have h1c : s1.consecutive_threat_frames = 0 := by
      rw [hs1, uc_counter, if_neg (by simp [hq])]
    have h1l : s1.lockout_end_time = s.lockout_end_time := by
      rw [hs1, uc_lockout, if_neg (by simp [hq])]
    have h1m : s1.max_threat_confidence = s.max_threat_confidence := by
      rw [hs1, uc_max, if_neg (by simp [hq])]
    have h1s : s1.incident_start_time = s.incident_start_time := by
      rw [hs1, uc_start]
    by_cases ht : s.lockout_end_time < now
    · have h2 := at_exit cfg now s1 h1a h1c hp (by rw [h1l]; exact ht)
      rw [evaluateState, ← hs1, (ec_active_proj now _).2.2.2.2.2, h2]
      simp only [h1log, h1m, h1s, ht, and_true, true_and]
    · have h2 : applyTransitions cfg now s1 = s1 :=
        at_keep_state cfg now s1 h1a h1c (by rw [h1l]; exact ht)
      rw [evaluateState, ← hs1, (ec_active_proj now _).2.2.2.2.2, h2, h1log]
      simp [ht]

/-- The running max is raised to a qualifying frame's confidence exactly
when that confidence exceeds the current value. -/
theorem evaluate_max_qual (cfg : Settings) (now : ℚ) (det : Bool) (conf : ℚ) (s : CState)
    (hq : isHighConfidence cfg det conf = true) :
    (evaluateState cfg now det conf s).max_threat_confidence =
      if s.max_threat_confidence < conf then conf else s.max_threat_confidence := by
  set s1 := updateCounters cfg now det conf s with hs1
  have h1c : s1.consecutive_threat_frames = s.consecutive_threat_frames + 1 := by
    rw [hs1, uc_counter, if_pos hq]
  have h1m : s1.max_threat_confidence =
      if s.max_threat_confidence < conf then conf else s.max_threat_confidence := by
    rw [hs1, uc_max]
    split_ifs with h1 h2 <;> simp_all
  rw [evaluateState, ← hs1, (ec_active_proj now _).2.2.2.2.1,
    at_max_nonzero cfg now s1 (by omega), h1m]

theorem incidentDuration_some (now t : ℚ) (ht : t ≠ 0) :
    incidentDuration now (some t) = now - t := by
  simp [incidentDuration, ht]

/-! ## Claim C7 -/

/-- Claim C7 (amended): every exit from Lockdown appends exactly one audit
record, and appends it if and only if forensic logging is enabled at exit
time; no frame while Lockdown is inactive writes a record; the record's
duration is exit time minus the recorded incident start (entry) time, and
entry records the entry frame's time; but the record's confidence is the
controller's *running* max `max_threat_confidence`, accumulated over every
qualifying frame since the previous reset — which may include qualifying
frames seen before Lockdown entry — not the maximum over the incident
interval itself. -/
theorem C7_exit_audit_record (cfg : Settings) (hp : 1 ≤ cfg.persistence_frames) :
    (∀ (now : ℚ) (det : Bool) (conf : ℚ) (s : CState),
       s.is_threat_active = true →
       (evaluateState cfg now det conf s).log =
         if isHighConfidence cfg det conf = false ∧ s.lockout_end_time < now ∧
            cfg.enable_forensic_logging = true
         then ⟨shieldThreatType, s.max_threat_confidence,
               incidentDuration now s.incident_start_time⟩ :: s.log
         else s.log) ∧
    (∀ (now : ℚ) (det : Bool) (conf : ℚ) (s : CState),
       s.is_threat_active = false →
       (evaluateState cfg now det conf s).log = s.log) ∧
    (∀ now t : ℚ, t ≠ 0 → incidentDuration now (some t) = now - t) ∧
    (∀ (now : ℚ) (det : Bool) (conf : ℚ) (s : CState),
       s.is_threat_active = false →
       cfg.persistence_frames ≤
         (if isHighConfidence cfg det conf = true then s.consecutive_threat_frames + 1 else 0) →
       (evaluateState cfg now det conf s).incident_start_time = some now) ∧
    (∀ (now : ℚ) (det : Bool) (conf : ℚ) (s : CState),
       isHighConfidence cfg det conf = true →
       (evaluateState cfg now det conf s).max_threat_confidence =
         if s.max_threat_confidence < conf then conf else s.max_threat_confidence) :=
  ⟨fun now det conf s ha => evaluate_log_active cfg now det conf s hp ha,
   fun now det conf s ha => evaluate_log_inactive cfg now det conf s ha,
   fun now t ht => incidentDuration_some now t ht,
   fun now det conf s ha hc => (evaluate_enters cfg now det conf s ha hc).2.1,
   fun now det conf s hq => evaluate_max_qual cfg now det conf s hq⟩

/-- Counterexample to C7 as stated: with threshold 0.60 and persistence 3, a
0.9-confidence frame whose streak is broken precedes an incident sustained
entirely at 0.7; Lockdown is entered at time 5 and exited at time 16, yet the
single audit record carries confidence 0.9 — strictly greater than every
confidence observed from entry to exit — because `max_threat_confidence` was
never reset between the 0.9 frame and the incident. -/
theorem C7_counterexample :
    (evalRun exampleCfg initState
      [⟨1, true, 9/10⟩, ⟨2, true, 3/10⟩, ⟨3, true, 7/10⟩, ⟨4, true, 7/10⟩,
       ⟨5, true, 7/10⟩]).incident_start_time = some 5 ∧
    (evalRun exampleCfg initState
      [⟨1, true, 9/10⟩, ⟨2, true, 3/10⟩, ⟨3, true, 7/10⟩, ⟨4, true, 7/10⟩,
       ⟨5, true, 7/10⟩, ⟨16, false, 0⟩]).log =
      [⟨shieldThreatType, 9/10, 11⟩] ∧
    (∀ f ∈ [(⟨1, true, 9/10⟩ : FrameObs), ⟨2, true, 3/10⟩, ⟨3, true, 7/10⟩,
        ⟨4, true, 7/10⟩, ⟨5, true, 7/10⟩, ⟨16, false, 0⟩],
       (5 : ℚ) ≤ f.now → f.confidence < 9/10) :=
  ⟨by with_unfolding_all decide, by with_unfolding_all decide, by with_unfolding_all decide⟩

/-- Witness for C7: a concrete Lockdown state exiting at time 20 logs exactly
one record with the running max confidence and duration 20 − 3. -/
theorem C7_exit_audit_record_witness :
    (evaluateState exampleCfg 20 false 0
      (evalRun exampleCfg initState (confTrace 1 [7/10, 7/10, 7/10]))).log =
      [⟨shieldThreatType, 7/10, 17⟩] := by
  have h := (C7_exit_audit_record exampleCfg (by with_unfolding_all decide)).1 20 false 0
    (evalRun exampleCfg initState (confTrace 1 [7/10, 7/10, 7/10]))
    (by with_unfolding_all decide)
  rw [h]
  with_unfolding_all decide

/-- `pause_monitoring` on an active threat: full reset of the incident
fields, `(false, 0)` emission, untouched log. -/
theorem pause_active_spec (s : CState) (ha : s.is_threat_active = true) :
    pauseMonitoring s =
      { s with monitoring_active := false
               is_threat_active := false
               consecutive_threat_frames := 0
               incident_start_time := none
               max_threat_confidence := 0
               lockout_end_time := 0
               emitted := (false, 0) :: s.emitted } := by
  simp only [pauseMonitoring]
  rw [if_pos ha]

/-! ## Claim C10 -/

/-- Claim C10: calling `pause_monitoring` while the threat flag is set
immediately resets the consecutive-frame counter, the threat flag, the
incident start time, the running max confidence and the lockout end to their
initial values, emits the `(false, 0)` notification — and writes no audit
record for the interrupted incident: the function never consults the
forensic-logging setting and leaves the log untouched. -/
theorem C10_pause_resets_without_audit (s : CState) (ha : s.is_threat_active = true) :
    (pauseMonitoring s).is_threat_active = false ∧
    (pauseMonitoring s).consecutive_threat_frames = 0 ∧
    (pauseMonitoring s).incident_start_time = none ∧
    (pauseMonitoring s).max_threat_confidence = 0 ∧
    (pauseMonitoring s).lockout_end_time = 0 ∧
    (pauseMonitoring s).emitted = (false, 0) :: s.emitted ∧
    (pauseMonitoring s).log = s.log := by
  rw [pause_active_spec s ha]
  exact ⟨rfl, rfl, rfl, rfl, rfl, rfl, rfl⟩

/-- Witness for C10: pausing a concrete Lockdown state clears the flag and
leaves the (empty) audit log empty. -/
theorem C10_pause_resets_without_audit_witness :
    (pauseMonitoring
      (evalRun exampleCfg initState (confTrace 1 [7/10, 7/10, 7/10]))).is_threat_active = false ∧
    (pauseMonitoring
      (evalRun exampleCfg initState (confTrace 1 [7/10, 7/10, 7/10]))).log = [] := by
  have h := C10_pause_resets_without_audit
    (evalRun exampleCfg initState (confTrace 1 [7/10, 7/10, 7/10]))
    (by with_unfolding_all decide)
  refine ⟨h.1, ?_⟩
  rw [h.2.2.2.2.2.2]
  with_unfolding_all decide

/-! ## Claim C4 -/

/-- Claim C4 (amended): `set_protection_mode` switches the mode, clears the
controller's threat-region map and its last-censored-frame cache, and — only
when the threat flag was set — resets the five incident fields to their
initial values with a `(false, 0)` notification. It does *not* reset the
controller's next-id counter, does not touch the engine's threat memory
(although `clear_threat_memory` on the engine would empty it), and when no
threat is active it leaves the counter, running max, lockout end and
emissions as they were. -/
theorem C4_mode_switch_selective_reset (m : ProtectionMode) (s : CState) :
    (setProtectionMode m s).protection_mode = m ∧
    (setProtectionMode m s).active_threats = [] ∧
    (setProtectionMode m s).last_censored_frame = none ∧
    (setProtectionMode m s).next_threat_id = s.next_threat_id ∧
    (setProtectionMode m s).engine_active_threats = s.engine_active_threats ∧
    (setProtectionMode m s).engine_next_threat_id = s.engine_next_threat_id ∧
    (s.is_threat_active = true →
       (setProtectionMode m s).is_threat_active = false ∧
       (setProtectionMode m s).consecutive_threat_frames = 0 ∧
       (setProtectionMode m s).incident_start_time = none ∧
       (setProtectionMode m s).max_threat_confidence = 0 ∧
       (setProtectionMode m s).lockout_end_time = 0 ∧
       (setProtectionMode m s).emitted = (false, 0) :: s.emitted) ∧
    (s.is_threat_active = false →
       (setProtectionMode m s).consecutive_threat_frames = s.consecutive_threat_frames ∧
       (setProtectionMode m s).max_threat_confidence = s.max_threat_confidence ∧
       (setProtectionMode m s).lockout_end_time = s.lockout_end_time ∧
       (setProtectionMode m s).emitted = s.emitted) ∧
    ((clearThreatMemory s).engine_active_threats = [] ∧
     (clearThreatMemory s).engine_next_threat_id = 0) := by
  cases hA : s.is_threat_active <;>
    simp [setProtectionMode, clearThreatMemory, hA]

/-- Counterexample to C4 as stated: switching modes on a state with a broken
(not yet active) streak leaves the consecutive-frame counter at 2 and the
running max at 0.9 instead of their initial values, keeps the next-id counter
at 5, and leaves the engine's threat memory non-empty. -/
theorem C4_counterexample :
    (setProtectionMode ProtectionMode.censorship
      { initState with consecutive_threat_frames := 2
                       max_threat_confidence := 9/10
                       next_threat_id := 5
                       engine_active_threats := [(0, ⟨⟨0, 0, 10, 10⟩, 3⟩)]
                       engine_next_threat_id := 1 }).consecutive_threat_frames = 2 ∧
    (setProtectionMode ProtectionMode.censorship
      { initState with consecutive_threat_frames := 2
                       max_threat_confidence := 9/10
                       next_threat_id := 5
                       engine_active_threats := [(0, ⟨⟨0, 0, 10, 10⟩, 3⟩)]
                       engine_next_threat_id := 1 }).max_threat_confidence = 9/10 ∧
    (setProtectionMode ProtectionMode.censorship
      { initState with consecutive_threat_frames := 2
                       max_threat_confidence := 9/10
                       next_threat_id := 5
                       engine_active_threats := [(0, ⟨⟨0, 0, 10, 10⟩, 3⟩)]
                       engine_next_threat_id := 1 }).engine_active_threats =
      [(0, ⟨⟨0, 0, 10, 10⟩, 3⟩)] ∧
    initState.consecutive_threat_frames = 0 ∧
    initState.max_threat_confidence = 0 ∧
    initState.engine_active_threats = [] :=
  ⟨by with_unfolding_all decide, by with_unfolding_all decide,
   by with_unfolding_all decide, rfl, rfl, rfl⟩

/-- Witness for C4: switching the initial (inactive) state to censorship
keeps the counter and emissions unchanged and clears the region map. -/
theorem C4_mode_switch_selective_reset_witness :
    (setProtectionMode ProtectionMode.censorship initState).active_threats = [] ∧
    (setProtectionMode ProtectionMode.censorship initState).consecutive_threat_frames =
      initState.consecutive_threat_frames := by
  have h := C4_mode_switch_selective_reset ProtectionMode.censorship initState
  exact ⟨h.2.1, (h.2.2.2.2.2.2.2.1 rfl).1⟩

/-! ## Claim C3 -/

/-- While monitoring is disabled, one cycle only rewrites the
virtual-camera output. -/
theorem cycleStep_paused (cfg : Settings) (inp : FrameInput) (s : CState)
    (hm : s.monitoring_active = false) :
    cycleStep cfg inp s = { s with vcam_out := some (VFrame.raw inp.frameId) } := by
  simp only [cycleStep]
  rw [if_pos hm]

/-- While monitoring is disabled, any number of cycles only rewrites the
virtual-camera output. -/
theorem cycleRun_paused (cfg : Settings) (l : List FrameInput) :
    ∀ s : CState, s.monitoring_active = false →
      ∃ v, cycleRun cfg s l = { s with vcam_out := v } := by
  induction l with
  | nil => exact fun s _ => ⟨s.vcam_out, rfl⟩
  | cons f rest ih =>
    intro s hm
    show ∃ v, cycleRun cfg (cycleStep cfg f s) rest = { s with vcam_out := v }
    rw [cycleStep_paused cfg f s hm]
    obtain ⟨v, hv⟩ := ih { s with vcam_out := some (VFrame.raw f.frameId) } hm
    exact ⟨v, hv⟩

/-- Claim C3 (amended): the code's override is the boolean monitoring pause,
not a timed grace window. While monitoring is paused every cycle skips the
entire evaluation step — no counter changes, no transitions, no region
updates, no audit records, no notifications — even under sustained
qualifying detections, for arbitrarily many frames; and pausing while
Lockdown is active clears the incident with a `(false, 0)` notification but
does *not* log the incident (no "overridden" record is written). -/
theorem C3_pause_skips_evaluation (cfg : Settings) :
    (∀ (inp : FrameInput) (s : CState), s.monitoring_active = false →
       cycleStep cfg inp s = { s with vcam_out := some (VFrame.raw inp.frameId) }) ∧
    (∀ (l : List FrameInput) (s : CState), s.monitoring_active = false →
       (cycleRun cfg s l).consecutive_threat_frames = s.consecutive_threat_frames ∧
       (cycleRun cfg s l).is_threat_active = s.is_threat_active ∧
       (cycleRun cfg s l).incident_start_time = s.incident_start_time ∧
       (cycleRun cfg s l).max_threat_confidence = s.max_threat_confidence ∧
       (cycleRun cfg s l).lockout_end_time = s.lockout_end_time ∧
       (cycleRun cfg s l).active_threats = s.active_threats ∧
       (cycleRun cfg s l).log = s.log ∧
       (cycleRun cfg s l).emitted = s.emitted) ∧
    (∀ s : CState, s.is_threat_active = true →
       (pauseMonitoring s).monitoring_active = false ∧
       (pauseMonitoring s).is_threat_active = false ∧
       (pauseMonitoring s).emitted = (false, 0) :: s.emitted ∧
       (pauseMonitoring s).log = s.log) := by
  refine ⟨cycleStep_paused cfg, ?_, ?_⟩
  · intro l s hm
    obtain ⟨v, hv⟩ := cycleRun_paused cfg l s hm
    rw [hv]
    exact ⟨rfl, rfl, rfl, rfl, rfl, rfl, rfl, rfl⟩
  · intro s ha
    rw [pause_active_spec s ha]
    exact ⟨rfl, rfl, rfl, rfl⟩

/-- Counterexample to C3 as stated: pausing (the code's override) while a
concrete Lockdown is active clears the incident yet writes no audit record
at all — in particular none marked "overridden" — even though forensic
logging is enabled in the settings. -/
theorem C3_counterexample :
    (pauseMonitoring
      (evalRun exampleCfg initState (confTrace 1 [7/10, 7/10, 7/10]))).is_threat_active = false ∧
    (pauseMonitoring
      (evalRun exampleCfg initState (confTrace 1 [7/10, 7/10, 7/10]))).log = [] ∧
    exampleCfg.enable_forensic_logging = true :=
  ⟨by with_unfolding_all decide, by with_unfolding_all decide, rfl⟩

/-- Witness for C3: a paused state processing a qualifying detection keeps
its counter at zero and its log empty. -/
theorem C3_pause_skips_evaluation_witness :
    (cycleRun exampleCfg { initState with monitoring_active := false }
      [⟨1, 640, 480, true, 9/10, [], 5, 1⟩]).consecutive_threat_frames = 0 ∧
    (cycleRun exampleCfg { initState with monitoring_active := false }
      [⟨1, 640, 480, true, 9/10, [], 5, 1⟩]).log = [] := by
  have h := (C3_pause_skips_evaluation exampleCfg).2.1
    [⟨1, 640, 480, true, 9/10, [], 5, 1⟩] { initState with monitoring_active := false } rfl
  exact ⟨h.1, h.2.2.2.2.2.2.1⟩

/-- Python `int(bw * 0.20)` on a nonnegative integer width is the floor of a
fifth of it. -/
theorem pyInt_fifth (n : ℤ) (hn : 0 ≤ n) :
    pyInt ((n : ℚ) * roiPaddingPercent) = ⌊(n : ℚ) / 5⌋ := by
  have h0 : (0 : ℚ) ≤ (n : ℚ) * roiPaddingPercent := by
    rw [roiPaddingPercent]
    exact mul_nonneg (by exact_mod_cast hn) (by norm_num)
  rw [pyInt, if_pos h0]
  congr 1
  rw [roiPaddingPercent]
  ring

/-- The truncated pad amount is nonnegative for a well-ordered box. -/
theorem pyInt_fifth_nonneg (n : ℤ) (hn : 0 ≤ n) :
    0 ≤ pyInt ((n : ℚ) * roiPaddingPercent) := by
  rw [pyInt_fifth n hn]
  exact Int.floor_nonneg.2 (by positivity)

/-! ## Claim C8 -/

/-- Claim C8 (amended): `_pad_box` expands a box outward by `int(0.20 * width)`
pixels on each side in x and `int(0.20 * height)` pixels on each side in y
(that is, ⌊width/5⌋ and ⌊height/5⌋), clamped to the frame bounds; away from
the bounds the expansion is exact, a box inside the frame always contains its
padded version's interior and the result stays inside the frame. The spec's
example value is wrong: in a 640×480 frame, `(100,100,200,200)` padded 20%
becomes `(80,80,220,220)` — each side moves by `int(100 * 0.20) = 20` pixels,
not the claimed 10. -/
theorem C8_pad_box_expansion (x1 y1 x2 y2 w h : ℤ)
    (hx : x1 ≤ x2) (hy : y1 ≤ y2) :
    (padBox 100 100 200 200 640 480 = ⟨80, 80, 220, 220⟩) ∧
    (pyInt (((x2 - x1 : ℤ) : ℚ) * roiPaddingPercent) ≤ x1 →
     x2 + pyInt (((x2 - x1 : ℤ) : ℚ) * roiPaddingPercent) ≤ w →
     pyInt (((y2 - y1 : ℤ) : ℚ) * roiPaddingPercent) ≤ y1 →
     y2 + pyInt (((y2 - y1 : ℤ) : ℚ) * roiPaddingPercent) ≤ h →
     padBox x1 y1 x2 y2 w h =
       ⟨x1 - ⌊((x2 - x1 : ℤ) : ℚ) / 5⌋, y1 - ⌊((y2 - y1 : ℤ) : ℚ) / 5⌋,
        x2 + ⌊((x2 - x1 : ℤ) : ℚ) / 5⌋, y2 + ⌊((y2 - y1 : ℤ) : ℚ) / 5⌋⟩) ∧
    (0 ≤ x1 → x2 ≤ w → 0 ≤ y1 → y2 ≤ h →
     (padBox x1 y1 x2 y2 w h).x1 ≤ x1 ∧ x2 ≤ (padBox x1 y1 x2 y2 w h).x2 ∧
     (padBox x1 y1 x2 y2 w h).y1 ≤ y1 ∧ y2 ≤ (padBox x1 y1 x2 y2 w h).y2 ∧
     0 ≤ (padBox x1 y1 x2 y2 w h).x1 ∧ (padBox x1 y1 x2 y2 w h).x2 ≤ w ∧
     0 ≤ (padBox x1 y1 x2 y2 w h).y1 ∧ (padBox x1 y1 x2 y2 w h).y2 ≤ h) := by
  have hpx := pyInt_fifth_nonneg (x2 - x1) (by omega)
  have hpy := pyInt_fifth_nonneg (y2 - y1) (by omega)
  refine ⟨by with_unfolding_all decide, ?_, ?_⟩
  · intro h1 h2 h3 h4
    simp only [padBox]
    rw [pyInt_fifth (x2 - x1) (by omega), pyInt_fifth (y2 - y1) (by omega)]
    rw [pyInt_fifth (x2 - x1) (by omega)] at h1 h2
    rw [pyInt_fifth (y2 - y1) (by omega)] at h3 h4
    rw [max_eq_right (by omega), max_eq_right (by omega),
        min_eq_right (by omega), min_eq_right (by omega)]
  · intro hx0 hxw hy0 hyh
    simp only [padBox]
    refine ⟨max_le hx0 (by omega), le_min hxw (by omega),
            max_le hy0 (by omega), le_min hyh (by omega),
            le_max_left 0 _, min_le_left w _, le_max_left 0 _, min_le_left h _⟩

/-- Counterexample to C8 as stated: the spec's example output `(90,90,210,210)`
is not what `_pad_box` returns for `(100,100,200,200)` in a 640×480 frame. -/
theorem C8_counterexample :
    padBox 100 100 200 200 640 480 ≠ ⟨90, 90, 210, 210⟩ := by
  with_unfolding_all decide

/-- Witness for C8: the amended example, instantiating the theorem at the
concrete box. -/
theorem C8_pad_box_expansion_witness :
    padBox 100 100 200 200 640 480 = ⟨80, 80, 220, 220⟩ :=
  (C8_pad_box_expansion 100 100 200 200 640 480 (by omega) (by omega)).1

/-! ## Claim C9 -/

/-- Claim C9 (amended): the IoU on `(x1, y1, x2, y2)` boxes is symmetric;
disjoint boxes (empty intersection on the x or y axis) give 0.0; and a box
with positive width and height has IoU 1.0 with itself — but a *degenerate*
box (zero or negative extent) has IoU 0.0 with itself, because the code
returns 0.0 whenever the union area is not positive. -/
theorem C9_iou_algebra :
    (∀ a b : Box, iou a b = iou b a) ∧
    (∀ a b : Box,
       min a.x2 b.x2 ≤ max a.x1 b.x1 ∨ min a.y2 b.y2 ≤ max a.y1 b.y1 →
       iou a b = 0) ∧
    (∀ a : Box, a.x1 < a.x2 → a.y1 < a.y2 → iou a a = 1) := by
  refine ⟨?_, ?_, ?_⟩
  · intro a b
    simp only [iou]
    rw [max_comm a.x1 b.x1, max_comm a.y1 b.y1, min_comm a.x2 b.x2, min_comm a.y2 b.y2,
        add_comm ((a.x2 - a.x1) * (a.y2 - a.y1)) ((b.x2 - b.x1) * (b.y2 - b.y1))]
  · intro a b hd
    simp only [iou]
    rcases hd with hd | hd
    · rw [max_eq_left (by omega : min a.x2 b.x2 - max a.x1 b.x1 ≤ 0), zero_mul]
      split_ifs <;> simp
    · rw [max_eq_left (by omega : min a.y2 b.y2 - max a.y1 b.y1 ≤ 0), mul_zero]
      split_ifs <;> simp
  · intro a hx hy
    simp only [iou, max_self, min_self]
    rw [max_eq_right (by omega : (0:ℤ) ≤ a.x2 - a.x1),
        max_eq_right (by omega : (0:ℤ) ≤ a.y2 - a.y1)]
    have harea : 0 < (a.x2 - a.x1) * (a.y2 - a.y1) :=
      mul_pos (by omega) (by omega)
    rw [show (a.x2 - a.x1) * (a.y2 - a.y1) + (a.x2 - a.x1) * (a.y2 - a.y1) -
        (a.x2 - a.x1) * (a.y2 - a.y1) = (a.x2 - a.x1) * (a.y2 - a.y1) by ring]
    rw [if_pos harea]
    exact div_self (by exact_mod_cast harea.ne')

/-- Counterexample to C9 as stated: a degenerate box (reachable, since
decoded boxes can collapse to zero width after integer truncation) has IoU 0
with itself, not 1. -/
theorem C9_counterexample :
    iou ⟨0, 0, 0, 0⟩ ⟨0, 0, 0, 0⟩ = 0 ∧ ¬ iou ⟨0, 0, 0, 0⟩ ⟨0, 0, 0, 0⟩ = 1 :=
  ⟨by with_unfolding_all decide, by with_unfolding_all decide⟩

/-- Witness for C9: a proper box has IoU 1 with itself, and two separated
boxes have IoU 0, via the theorem at concrete boxes. -/
theorem C9_iou_algebra_witness :
    iou ⟨0, 0, 10, 10⟩ ⟨0, 0, 10, 10⟩ = 1 ∧ iou ⟨0, 0, 10, 10⟩ ⟨20, 20, 30, 30⟩ = 0 :=
  ⟨C9_iou_algebra.2.2 ⟨0, 0, 10, 10⟩ (by decide) (by decide),
   C9_iou_algebra.2.1 ⟨0, 0, 10, 10⟩ ⟨20, 20, 30, 30⟩ (by left; decide)⟩

/-- The incident/audit half of the censorship branch never touches the
frame routing, the region map or the last-safe cache. -/
theorem cip_frame_fields (cfg : Settings) (inp : FrameInput) (s : CState) :
    (censorIncidentPhase cfg inp s).vcam_out = s.vcam_out ∧
    (censorIncidentPhase cfg inp s).active_threats = s.active_threats ∧
    (censorIncidentPhase cfg inp s).last_censored_frame = s.last_censored_frame ∧
    (censorIncidentPhase cfg inp s).next_threat_id = s.next_threat_id := by
  simp only [censorIncidentPhase]
  split_ifs <;> exact ⟨rfl, rfl, rfl, rfl⟩

/-- Slow cycle with a cached frame: route the cache, freeze the tracker. -/
theorem cfp_slow (inp : FrameInput) (s : CState) (f : VFrame)
    (hl : 50 < inp.latency_ms) (hf : s.last_censored_frame = some f) :
    censorFramePhase inp s = { s with vcam_out := some f } := by
  simp only [censorFramePhase]
  rw [if_pos ⟨hl, by rw [hf]; exact Option.some_ne_none f⟩, hf]

/-- Fast cycle (or no cached frame yet): run the tracker and adopt the fresh
sanitized frame as both output and cache. -/
theorem cfp_fast (inp : FrameInput) (s : CState)
    (h : ¬ (50 < inp.latency_ms ∧ s.last_censored_frame ≠ none)) :
    censorFramePhase inp s =
      { s with
        active_threats := (stepMemory s.active_threats s.next_threat_id inp.boxes).1
        next_threat_id := (stepMemory s.active_threats s.next_threat_id inp.boxes).2.1
        last_censored_frame := some (VFrame.sanitized inp.frameId
          (paddedBoxes (stepMemory s.active_threats s.next_threat_id inp.boxes).1
            inp.frame_w inp.frame_h))
        vcam_out := some (VFrame.sanitized inp.frameId
          (paddedBoxes (stepMemory s.active_threats s.next_threat_id inp.boxes).1
            inp.frame_w inp.frame_h)) } := by
  simp only [censorFramePhase]
  rw [if_neg h]

/-- With monitoring on and censorship mode selected, a cycle is exactly the
censorship branch. -/
theorem cycleStep_censorship (cfg : Settings) (inp : FrameInput) (s : CState)
    (hm : s.monitoring_active = true) (hmode : s.protection_mode = ProtectionMode.censorship) :
    cycleStep cfg inp s = censorshipStep cfg inp s := by
  simp only [cycleStep]
  rw [if_neg (by simp [hm]), if_pos hmode]

/-! ## Claim C5 -/

/-- Claim C5 (amended): in censorship mode, on every cycle whose measured
inference latency exceeds 50 ms *and on which a previously redacted frame is
cached*, the frame routed to the virtual-camera sink is that cached frame
(and the tracker state is frozen); on a slow cycle before any redacted frame
exists the full redaction pipeline runs and the freshly redacted frame is
routed; on every other cycle the fresh redacted frame is routed and becomes
the cache. In all cases the sink receives a frame that went through
redaction, never the raw capture. -/
theorem C5_block_first_frame_routing (cfg : Settings) :
    (∀ (inp : FrameInput) (s : CState) (f : VFrame),
       s.monitoring_active = true → s.protection_mode = ProtectionMode.censorship →
       50 < inp.latency_ms → s.last_censored_frame = some f →
       (cycleStep cfg inp s).vcam_out = some f ∧
       (cycleStep cfg inp s).active_threats = s.active_threats ∧
       (cycleStep cfg inp s).last_censored_frame = some f) ∧
    (∀ (inp : FrameInput) (s : CState),
       s.monitoring_active = true → s.protection_mode = ProtectionMode.censorship →
       ¬ (50 < inp.latency_ms ∧ s.last_censored_frame ≠ none) →
       (cycleStep cfg inp s).vcam_out = some (VFrame.sanitized inp.frameId
         (paddedBoxes (stepMemory s.active_threats s.next_threat_id inp.boxes).1
           inp.frame_w inp.frame_h)) ∧
       (cycleStep cfg inp s).last_censored_frame = (cycleStep cfg inp s).vcam_out) ∧
    (∀ (inp : FrameInput) (s : CState),
       s.monitoring_active = true → s.protection_mode = ProtectionMode.censorship →
       (∀ g, s.last_censored_frame = some g → g.isSanitizedFrame = true) →
       (∃ g', (cycleStep cfg inp s).vcam_out = some g' ∧ g'.isSanitizedFrame = true) ∧
       (∀ g, (cycleStep cfg inp s).last_censored_frame = some g →
          g.isSanitizedFrame = true)) := by
  refine ⟨?_, ?_, ?_⟩
  · intro inp s f hm hmode hl hf
    rw [cycleStep_censorship cfg inp s hm hmode, censorshipStep]
    obtain ⟨p1, p2, p3, -⟩ := cip_frame_fields cfg inp (censorFramePhase inp s)
    rw [p1, p2, p3, cfp_slow inp s f hl hf]
    exact ⟨rfl, rfl, hf⟩
  · intro inp s hm hmode hslow
    rw [cycleStep_censorship cfg inp s hm hmode, censorshipStep]
    obtain ⟨p1, p2, p3, -⟩ := cip_frame_fields cfg inp (censorFramePhase inp s)
    rw [p1, p3, cfp_fast inp s hslow]
    exact ⟨rfl, rfl⟩
  · intro inp s hm hmode hlast
    rw [cycleStep_censorship cfg inp s hm hmode, censorshipStep]
    obtain ⟨p1, -, p3, -⟩ := cip_frame_fields cfg inp (censorFramePhase inp s)
    rw [p1, p3]
    by_cases hc : 50 < inp.latency_ms ∧ s.last_censored_frame ≠ none
    · obtain ⟨hl, hne⟩ := hc
      obtain ⟨f, hf⟩ := Option.ne_none_iff_exists'.1 hne
      rw [cfp_slow inp s f hl hf]
      exact ⟨⟨f, rfl, hlast f hf⟩, fun g hg => hlast g hg⟩
    · rw [cfp_fast inp s hc]
      exact ⟨⟨_, rfl, rfl⟩, fun g hg => by rw [← Option.some_inj.1 hg]; rfl⟩

/-- Counterexample to C5 as stated: a slow first cycle (latency 60 ms) with
no previously redacted frame cached routes the freshly redacted frame — not
a "last already-redacted frame", which does not exist — to the sink. -/
theorem C5_counterexample :
    ({ initState with protection_mode := ProtectionMode.censorship } :
        CState).last_censored_frame = none ∧
    (cycleStep exampleCfg ⟨7, 640, 480, false, 0, [], 60, 100⟩
      { initState with protection_mode := ProtectionMode.censorship }).vcam_out =
      some (VFrame.sanitized 7 []) :=
  ⟨rfl, by with_unfolding_all decide⟩

/-- Witness for C5: a concrete slow cycle with a cached redacted frame routes
exactly that cached frame and freezes the tracker. -/
theorem C5_block_first_frame_routing_witness :
    (cycleStep exampleCfg ⟨8, 640, 480, true, 9/10, [⟨1, 1, 4, 4⟩], 60, 101⟩
      { initState with protection_mode := ProtectionMode.censorship
                       last_censored_frame := some (VFrame.sanitized 7 [])
                       active_threats := [(0, ⟨⟨0, 0, 10, 10⟩, 2⟩)]
                       next_threat_id := 1 }).vcam_out = some (VFrame.sanitized 7 []) ∧
    (cycleStep exampleCfg ⟨8, 640, 480, true, 9/10, [⟨1, 1, 4, 4⟩], 60, 101⟩
      { initState with protection_mode := ProtectionMode.censorship
                       last_censored_frame := some (VFrame.sanitized 7 [])
                       active_threats := [(0, ⟨⟨0, 0, 10, 10⟩, 2⟩)]
                       next_threat_id := 1 }).active_threats = [(0, ⟨⟨0, 0, 10, 10⟩, 2⟩)] := by
  have h := (C5_block_first_frame_routing exampleCfg).1
    ⟨8, 640, 480, true, 9/10, [⟨1, 1, 4, 4⟩], 60, 101⟩
    { initState with protection_mode := ProtectionMode.censorship
                     last_censored_frame := some (VFrame.sanitized 7 [])
                     active_threats := [(0, ⟨⟨0, 0, 10, 10⟩, 2⟩)]
                     next_threat_id := 1 }
    (VFrame.sanitized 7 []) rfl rfl (by with_unfolding_all decide) rfl
  exact ⟨h.1, h.2.1⟩

/-! ## Threat-memory lemmas for the tracking step -/

theorem findThreat_eq_none (tid : ℕ) (m : Memory) (h : tid ∉ m.map Prod.fst) :
    findThreat tid m = none := by
  induction m with
  | nil => rfl
  | cons p rest ih =>
    simp only [List.map_cons, List.mem_cons] at h
    push_neg at h
    rw [findThreat, if_neg (fun hc => h.1 hc.symm)]
    exact ih h.2

/-- Ageing leaves an id that was matched this frame untouched. -/
theorem ageThreats_matched_find (matched : List ℕ) (tid : ℕ) (m : Memory)
    (hm : tid ∈ matched) :
    findThreat tid (ageThreats matched m) = findThreat tid m := by
  induction m with
  | nil => rfl
  | cons p rest ih =>
    simp only [ageThreats]
    by_cases h1 : p.1 ∈ matched
    · rw [if_pos h1]
      show (if p.1 = tid then some p.2 else findThreat tid (ageThreats matched rest)) =
        if p.1 = tid then some p.2 else findThreat tid rest
      by_cases he : p.1 = tid
      · rw [if_pos he, if_pos he]
      · rw [if_neg he, if_neg he, ih]
    · have hne : ¬ p.1 = tid := fun he => h1 (he ▸ hm)
      rw [if_neg h1]
      by_cases h2 : censorCooldownFrames < p.2.cooldown + 1
      · rw [if_pos h2]
        show findThreat tid (ageThreats matched rest) =
          if p.1 = tid then some p.2 else findThreat tid rest
        rw [if_neg hne, ih]
      · rw [if_neg h2]
        show (if p.1 = tid then some (⟨p.2.box, p.2.cooldown + 1⟩ : ThreatData)
              else findThreat tid (ageThreats matched rest)) =
          if p.1 = tid then some p.2 else findThreat tid rest
        rw [if_neg hne, if_neg hne, ih]

/-- Ageing introduces no new ids. -/
theorem ageThreats_none (matched : List ℕ) (tid : ℕ) (m : Memory)
    (h : tid ∉ m.map Prod.fst) :
    findThreat tid (ageThreats matched m) = none := by
  induction m with
  | nil => rfl
  | cons p rest ih =>
    simp only [List.map_cons, List.mem_cons] at h
    push_neg at h
    have hne : ¬ p.1 = tid := fun hc => h.1 hc.symm
    simp only [ageThreats]
    by_cases h1 : p.1 ∈ matched
    · rw [if_pos h1]
      show (if p.1 = tid then some p.2 else findThreat tid (ageThreats matched rest)) = none
      rw [if_neg hne]
      exact ih h.2
    · rw [if_neg h1]
      by_cases h2 : censorCooldownFrames < p.2.cooldown + 1
      · rw [if_pos h2]
        exact ih h.2
      · rw [if_neg h2]
        show (if p.1 = tid then some (⟨p.2.box, p.2.cooldown + 1⟩ : ThreatData)
              else findThreat tid (ageThreats matched rest)) = none
        rw [if_neg hne]
        exact ih h.2

/-- Ageing an id that was not matched this frame: cooldown is incremented and
the entry is evicted exactly when the counter passes the fixed limit. -/
theorem ageThreats_unmatched_find (matched : List ℕ) (tid : ℕ) (m : Memory)
    (hnd : (m.map Prod.fst).Nodup) (hm : tid ∉ matched) (td : ThreatData)
    (hf : findThreat tid m = some td) :
    findThreat tid (ageThreats matched m) =
      if td.cooldown + 1 ≤ censorCooldownFrames
      then some ⟨td.box, td.cooldown + 1⟩ else none := by
  induction m with
  | nil => simp [findThreat] at hf
  | cons p rest ih =>
    have hnd' : (rest.map Prod.fst).Nodup := (List.nodup_cons.1 (by simpa using hnd)).2
    have hpk : p.1 ∉ rest.map Prod.fst := (List.nodup_cons.1 (by simpa using hnd)).1
    by_cases he : p.1 = tid
    · simp only [findThreat] at hf
      rw [if_pos he] at hf
      have htd : td = p.2 := (Option.some_inj.1 hf).symm
      simp only [ageThreats]
      rw [if_neg (fun hc => hm (he ▸ hc))]
      by_cases hcool : censorCooldownFrames < p.2.cooldown + 1
      · rw [if_pos hcool, ageThreats_none matched tid rest (he ▸ hpk), htd,
          if_neg (by omega)]
      · rw [if_neg hcool]
        show (if p.1 = tid then some (⟨p.2.box, p.2.cooldown + 1⟩ : ThreatData)
              else findThreat tid (ageThreats matched rest)) = _
        rw [if_pos he, htd, if_pos (by omega)]
    · simp only [findThreat] at hf
      rw [if_neg he] at hf
      simp only [ageThreats]
      by_cases h1 : p.1 ∈ matched
      · rw [if_pos h1]
        show (if p.1 = tid then some p.2 else findThreat tid (ageThreats matched rest)) = _
        rw [if_neg he]
        exact ih hnd' hf
      · rw [if_neg h1]
        by_cases h2 : censorCooldownFrames < p.2.cooldown + 1
        · rw [if_pos h2]
          exact ih hnd' hf
        · rw [if_neg h2]
          show (if p.1 = tid then some (⟨p.2.box, p.2.cooldown + 1⟩ : ThreatData)
                else findThreat tid (ageThreats matched rest)) = _
          rw [if_neg he]
          exact ih hnd' hf

/-- `setBox` leaves the key sequence unchanged. -/
theorem setBox_keys (mem : Memory) (t : ℕ) (b : Box) :
    (setBox mem t b).map Prod.fst = mem.map Prod.fst := by
  induction mem with
  | nil => rfl
  | cons p rest ih =>
    simp only [setBox, List.map_cons] at ih ⊢
    split_ifs with he
    · exact congrArg (fun l => p.1 :: l) ih
    · exact congrArg (fun l => p.1 :: l) ih

/-- An entry found under the updated id after `setBox` has cooldown 0. -/
theorem setBox_find_self (mem : Memory) (t : ℕ) (b : Box) (td : ThreatData)
    (h : findThreat t (setBox mem t b) = some td) : td.cooldown = 0 := by
  induction mem with
  | nil => simp [setBox, findThreat] at h
  | cons p rest ih =>
    simp only [setBox, List.map_cons] at h
    by_cases he : p.1 = t
    · rw [if_pos he] at h
      have h' : (if p.1 = t then some (⟨b, 0⟩ : ThreatData)
          else findThreat t (setBox rest t b)) = some td := h
      rw [if_pos he] at h'
      rw [← Option.some_inj.1 h']
    · rw [if_neg he] at h
      have h' : (if p.1 = t then some p.2 else findThreat t (setBox rest t b)) = some td := h
      rw [if_neg he] at h'
      exact ih h'

/-- `setBox` on some other id changes nothing that `findThreat` can see. -/
theorem setBox_find_ne (mem : Memory) (t tid : ℕ) (b : Box) (hne : tid ≠ t) :
    findThreat tid (setBox mem t b) = findThreat tid mem := by
  induction mem with
  | nil => rfl
  | cons p rest ih =>
    simp only [setBox, List.map_cons]
    by_cases he : p.1 = t
    · rw [if_pos he]
      have hne' : ¬ p.1 = tid := fun hc => hne (by rw [← hc]; exact he)
      show (if p.1 = tid then some (⟨b, 0⟩ : ThreatData)
            else findThreat tid (List.map _ rest)) = _
      rw [if_neg hne']
      show findThreat tid (setBox rest t b) = _
      rw [ih]
      show _ = if p.1 = tid then some p.2 else findThreat tid rest
      rw [if_neg hne']
    · rw [if_neg he]
      show (if p.1 = tid then some p.2 else findThreat tid (List.map _ rest)) = _
      by_cases hc : p.1 = tid
      · rw [if_pos hc]
        show _ = if p.1 = tid then some p.2 else findThreat tid rest
        rw [if_pos hc]
      · rw [if_neg hc]
        show findThreat tid (setBox rest t b) = _
        rw [ih]
        show _ = if p.1 = tid then some p.2 else findThreat tid rest
        rw [if_neg hc]

/-- Appending a fresh entry does not affect lookups of other ids. -/
theorem findThreat_append_ne (m : Memory) (tid k : ℕ) (d : ThreatData) (hne : tid ≠ k) :
    findThreat tid (m ++ [(k, d)]) = findThreat tid m := by
  induction m with
  | nil =>
    simp only [List.nil_append, findThreat]
    rw [if_neg (fun hc => hne hc.symm)]
  | cons p rest ih =>
    simp only [List.cons_append, findThreat]
    split_ifs with hc
    · rfl
    · exact ih

/-- Appending a fresh entry makes its id findable when it was absent. -/
theorem findThreat_append_self (m : Memory) (k : ℕ) (d : ThreatData)
    (h : k ∉ m.map Prod.fst) :
    findThreat k (m ++ [(k, d)]) = some d := by
  induction m with
  | nil =>
    show (if k = k then some d else none) = some d
    rw [if_pos rfl]
  | cons p rest ih =>
    simp only [List.map_cons, List.mem_cons] at h
    push_neg at h
    simp only [List.cons_append, findThreat]
    rw [if_neg (fun hc => h.1 hc.symm)]
    exact ih h.2

/-- A successful best-IoU match names an id present in the memory. -/
theorem bestMatch_key (mem : Memory) (b : Box) (t : ℕ) (h : bestMatch mem b = some t) :
    ∃ p ∈ mem, p.1 = t := by
  have haux : ∀ (m : Memory) (acc : ℚ × Option ℕ),
      (m.foldl (fun acc p =>
        if acc.1 < iou b p.2.box then (iou b p.2.box, some p.1) else acc) acc).2 = some t →
      acc.2 = some t ∨ ∃ p ∈ m, p.1 = t := by
    intro m
    induction m with
    | nil => exact fun acc h' => Or.inl h'
    | cons p rest ih =>
      intro acc h'
      rw [List.foldl_cons] at h'
      by_cases hc : acc.1 < iou b p.2.box
      · rw [if_pos hc] at h'
        rcases ih _ h' with hacc | ⟨q, hq, hqt⟩
        · exact Or.inr ⟨p, List.mem_cons_self p rest, Option.some_inj.1 hacc⟩
        · exact Or.inr ⟨q, List.mem_cons_of_mem p hq, hqt⟩
      · rw [if_neg hc] at h'
        rcases ih _ h' with hacc | ⟨q, hq, hqt⟩
        · exact Or.inl hacc
        · exact Or.inr ⟨q, List.mem_cons_of_mem p hq, hqt⟩
  simp only [bestMatch] at h
  split_ifs at h with hc
  rcases haux mem (0, none) h with h0 | hex
  · exact absurd h0 (by simp)
  · exact hex

/-- Every member of `setBox mem t b` shares its key with a member of `mem`. -/
theorem setBox_mem_key (mem : Memory) (t : ℕ) (b : Box) (p : ℕ × ThreatData)
    (h : p ∈ setBox mem t b) : ∃ q ∈ mem, p.1 = q.1 := by
  simp only [setBox] at h
  obtain ⟨q, hq, hpq⟩ := List.mem_map.1 h
  refine ⟨q, hq, ?_⟩
  rw [← hpq]
  split_ifs <;> rfl

/-- The inductive heart of the tracking step: over the whole matching loop,
ids stay below the next-id counter, the key sequence stays duplicate-free,
every matched id maps to a cooldown-0 entry, lookups of unmatched ids are
untouched, and the matched set only grows. -/
theorem matchPhase_spec (boxes : List Box) :
    ∀ (mem : Memory) (nid : ℕ) (matched : List ℕ),
      (∀ p ∈ mem, p.1 < nid) →
      (∀ t ∈ matched, t < nid) →
      (mem.map Prod.fst).Nodup →
      (∀ tid ∈ matched, ∀ td, findThreat tid mem = some td → td.cooldown = 0) →
      (∀ p ∈ (matchPhase boxes mem nid matched).1,
         p.1 < (matchPhase boxes mem nid matched).2.1) ∧
      (∀ t ∈ (matchPhase boxes mem nid matched).2.2,
         t < (matchPhase boxes mem nid matched).2.1) ∧
      ((matchPhase boxes mem nid matched).1.map Prod.fst).Nodup ∧
      (∀ tid ∈ (matchPhase boxes mem nid matched).2.2, ∀ td,
         findThreat tid (matchPhase boxes mem nid matched).1 = some td →
         td.cooldown = 0) ∧
      (∀ tid, tid ∉ (matchPhase boxes mem nid matched).2.2 →
         findThreat tid (matchPhase boxes mem nid matched).1 = findThreat tid mem) ∧
      (∀ t ∈ matched, t ∈ (matchPhase boxes mem nid matched).2.2) := by
  induction boxes with
  | nil =>
    intro mem nid matched hA hE hN hB
    exact ⟨hA, hE, hN, fun tid ht td => hB tid ht td, fun _ _ => rfl, fun t ht => ht⟩
  | cons b rest ih =>
    intro mem nid matched hA hE hN hB
    simp only [matchPhase]
    cases hbm : bestMatch mem b with
    | some t =>
      obtain ⟨q, hq, hqt⟩ := bestMatch_key mem b t hbm
      have htn : t < nid := hqt ▸ hA q hq
      have hA' : ∀ p ∈ setBox mem t b, p.1 < nid := by
        intro p hp
        obtain ⟨q', hq', hk⟩ := setBox_mem_key mem t b p hp
        rw [hk]
        exact hA q' hq'
      have hE' : ∀ u ∈ t :: matched, u < nid := by
        intro u hu
        rcases List.mem_cons.1 hu with h | h
        · rw [h]; exact htn
        · exact hE u h
      have hN' : ((setBox mem t b).map Prod.fst).Nodup := by
        rw [setBox_keys]; exact hN
      have hB' : ∀ tid ∈ t :: matched, ∀ td,
          findThreat tid (setBox mem t b) = some td → td.cooldown = 0 := by
        intro tid htid td hf
        by_cases he : tid = t
        · exact setBox_find_self mem t b td (he ▸ hf)
        · rw [setBox_find_ne mem t tid b he] at hf
          rcases List.mem_cons.1 htid with h | h
          · exact absurd h he
          · exact hB tid h td hf
      obtain ⟨A', E', N', B', C', D'⟩ := ih (setBox mem t b) nid (t :: matched) hA' hE' hN' hB'
      refine ⟨A', E', N', B', ?_, ?_⟩
      · intro tid htid
        have hne : tid ≠ t := fun he => htid (he ▸ D' t (List.mem_cons_self t matched))
        rw [C' tid htid, setBox_find_ne mem t tid b hne]
      · intro u hu
        exact D' u (List.mem_cons_of_mem t hu)
    | none =>
      have hA' : ∀ p ∈ mem ++ [(nid, (⟨b, 0⟩ : ThreatData))], p.1 < nid + 1 := by
        intro p hp
        rcases List.mem_append.1 hp with h | h
        · exact lt_trans (hA p h) (by omega)
        · rw [List.mem_singleton.1 h]
          omega
      have hE' : ∀ u ∈ nid :: matched, u < nid + 1 := by
        intro u hu
        rcases List.mem_cons.1 hu with h | h
        · omega
        · exact lt_trans (hE u h) (by omega)
      have hnidk : nid ∉ mem.map Prod.fst := by
        intro hmem
        obtain ⟨p, hp, hpk⟩ := List.mem_map.1 hmem
        have := hA p hp
        omega
      have hN' : ((mem ++ [(nid, (⟨b, 0⟩ : ThreatData))]).map Prod.fst).Nodup := by
        rw [List.map_append]
        refine List.Nodup.append hN (by simp) ?_
        intro x hx hx'
        rw [List.map_singleton, List.mem_singleton] at hx'
        rw [hx'] at hx
        exact hnidk hx
      have hB' : ∀ tid ∈ nid :: matched, ∀ td,
          findThreat tid (mem ++ [(nid, (⟨b, 0⟩ : ThreatData))]) = some td →
          td.cooldown = 0 := by
        intro tid htid td hf
        rcases List.mem_cons.1 htid with h | h
        · rw [h, findThreat_append_self mem nid ⟨b, 0⟩ hnidk] at hf
          rw [← Option.some_inj.1 hf]
        · have hne : tid ≠ nid := by
            have := hE tid h
            omega
          rw [findThreat_append_ne mem tid nid ⟨b, 0⟩ hne] at hf
          exact hB tid h td hf
      obtain ⟨A', E', N', B', C', D'⟩ :=
        ih (mem ++ [(nid, ⟨b, 0⟩)]) (nid + 1) (nid :: matched) hA' hE' hN' hB'
      refine ⟨A', E', N', B', ?_, ?_⟩
      · intro tid htid
        have hne : tid ≠ nid := fun he => htid (he ▸ D' nid (List.mem_cons_self nid matched))
        rw [C' tid htid, findThreat_append_ne mem tid nid ⟨b, 0⟩ hne]
      · intro u hu
        exact D' u (List.mem_cons_of_mem nid hu)

/-! ## Claim C6 -/

/-- Claim C6: in the tracking step, a region matched by no detection of the
frame has its cooldown incremented and is deleted exactly when the counter
exceeds 10 (it survives at a new cooldown of 10 and is evicted at 11); a
region matched this frame ends the step with cooldown 0; concretely, a region
starting at cooldown 0 and unmatched on every frame still exists after 10
consecutive unmatched frames and is evicted on the 11th. The general parts
assume the dict invariants (distinct ids, all below the next-id counter). -/
theorem C6_region_cooldown_eviction :
    (∀ (mem : Memory) (nid : ℕ) (boxes : List Box) (tid : ℕ) (td : ThreatData),
       (∀ p ∈ mem, p.1 < nid) → (mem.map Prod.fst).Nodup →
       findThreat tid mem = some td →
       tid ∉ (stepMemory mem nid boxes).2.2 →
       findThreat tid (stepMemory mem nid boxes).1 =
         if td.cooldown + 1 ≤ censorCooldownFrames
         then some ⟨td.box, td.cooldown + 1⟩ else none) ∧
    (∀ (mem : Memory) (nid : ℕ) (boxes : List Box) (tid : ℕ),
       (∀ p ∈ mem, p.1 < nid) → (mem.map Prod.fst).Nodup →
       tid ∈ (stepMemory mem nid boxes).2.2 →
       ∀ td, findThreat tid (stepMemory mem nid boxes).1 = some td → td.cooldown = 0) ∧
    (unmatchedRun 10 [(0, ⟨⟨0, 0, 10, 10⟩, 0⟩)] 1 = [(0, ⟨⟨0, 0, 10, 10⟩, 10⟩)] ∧
     unmatchedRun 11 [(0, ⟨⟨0, 0, 10, 10⟩, 0⟩)] 1 = []) := by
  refine ⟨?_, ?_, by with_unfolding_all decide, by with_unfolding_all decide⟩
  · intro mem nid boxes tid td hkeys hnd hf hun
    obtain ⟨-, -, N', -, C', -⟩ :=
      matchPhase_spec boxes mem nid [] hkeys (by simp) hnd (by simp)
    have hfr : findThreat tid (matchPhase boxes mem nid []).1 = some td := by
      rw [C' tid hun]
      exact hf
    exact ageThreats_unmatched_find (matchPhase boxes mem nid []).2.2 tid
      (matchPhase boxes mem nid []).1 N' hun td hfr
  · intro mem nid boxes tid hkeys hnd hin td hfind
    obtain ⟨-, -, -, B', -, -⟩ :=
      matchPhase_spec boxes mem nid [] hkeys (by simp) hnd (by simp)
    rw [show (stepMemory mem nid boxes).1 =
        ageThreats (matchPhase boxes mem nid []).2.2 (matchPhase boxes mem nid []).1 from rfl,
      ageThreats_matched_find (matchPhase boxes mem nid []).2.2 tid
        (matchPhase boxes mem nid []).1 hin] at hfind
    exact B' tid hin td hfind

/-- Witness for C6: a concrete unmatched region at cooldown 2 survives one
empty frame at cooldown 3, via the theorem. -/
theorem C6_region_cooldown_eviction_witness :
    findThreat 0 (stepMemory [(0, ⟨⟨0, 0, 10, 10⟩, 2⟩)] 1 []).1 =
      some ⟨⟨0, 0, 10, 10⟩, 3⟩ := by
  have h := C6_region_cooldown_eviction.1 [(0, ⟨⟨0, 0, 10, 10⟩, 2⟩)] 1 [] 0
    ⟨⟨0, 0, 10, 10⟩, 2⟩
    (by intro p hp
        rw [List.mem_singleton.1 hp]
        omega)
    (by with_unfolding_all decide) (by with_unfolding_all decide)
    (by with_unfolding_all decide)
  rw [h]
  with_unfolding_all decide

/-- Witness for C1: at the example settings, two qualifying frames leave the
machine Armed and a third consecutive one enters Lockdown. -/
theorem C1_lockdown_entry_at_persistence_witness :
    (evalRun exampleCfg initState (confTrace 1 [7/10, 7/10])).is_threat_active = false ∧
    (evalRun exampleCfg initState
      (confTrace 1 [7/10, 7/10] ++ [⟨3, true, 7/10⟩])).is_threat_active = true := by
  have h := C1_lockdown_entry_at_persistence exampleCfg (by with_unfolding_all decide)
  refine ⟨(h.1 (confTrace 1 [7/10, 7/10]) ?_).1,
          h.2.1 (confTrace 1 [7/10, 7/10]) ⟨3, true, 7/10⟩ ?_ (by with_unfolding_all decide)⟩ <;>
    · intro j hj
      have hj2 : j ≤ 2 := hj
      interval_cases j <;> with_unfolding_all decide

end LensBlock
